import Mathlib

/-!
# aslam_cv: camera projection wrappers and the rig binding of VisualNFrame

A shallow embedding of `aslam_cv/src/visual-nframe.cc` and `aslam_cv/src/camera.cc`.

Conventions of the embedding.

* A `std::shared_ptr<T>` is an `Option Nat`: `none` is the null handle, `some a` is the
  object living at address `a`.  Identity of objects is equality of addresses.
* The objects that handles point to live in a `Heap`.  Only `VisualFrame` objects are
  mutated by the code under study (through `setCameraGeometry`).
* A call that does not return (a glog `CHECK` that fires, or `operator->` on a null
  handle) is an `Except.error`; a call that returns is an `Except.ok`.
* An output parameter is a returned value.  Where the source reuses one local buffer
  across calls (the vectorised wrappers), a virtual method is seen through its output
  pointer: what the buffer held before the call is an argument, what it holds after is
  returned (`CameraVirtualsInPlace`).
-/

namespace aslam

/-! ## Failure model -/

/-- Why a call did not return: a glog CHECK fired, a null handle was dereferenced, or a
vector was indexed past its size. -/
inductive Fault where
  | checkFailed
  | nullDereference
  | outOfRange
  deriving DecidableEq

/-- C-style counting loop: runs `body i` for `i = start, start+1, ...`, `count` times,
threading the state and stopping at the first fault.  The loop
`for (i = 0; i < n; ++i) body` is `forRange body n 0`. -/
def forRange {σ : Type} (body : Nat → σ → Except Fault σ) : Nat → Nat → σ → Except Fault σ
  | 0, _, s => Except.ok s
  | k + 1, i, s =>
    match body i s with
    | Except.error e => Except.error e
    | Except.ok s1 => forRange body k (i + 1) s1

/-! ## Collaborators of VisualNFrame -/

/-- Modelled from the spec: the class NCamera (the camera rig), whose source is not part
of the two files.  The spec gives it as an ordered sequence of shared camera handles in
which every index has exactly one non-null camera, so the sequence holds addresses. -/
structure NCamera where
  cameras_ : List Nat
  deriving DecidableEq

/-- Modelled from the spec: `numCameras()` of the rig. -/
def NCamera.numCameras (rig : NCamera) : Nat := rig.cameras_.length

/-- Modelled from the spec: `getNumCameras()` of the rig, the same count. -/
def NCamera.getNumCameras (rig : NCamera) : Nat := rig.cameras_.length

/-- Modelled from the spec: `cameraShared(index) -> shared-handle`; an index out of range
is a contract violation. -/
def NCamera.getCameraShared (rig : NCamera) (i : Nat) : Except Fault (Option Nat) :=
  match rig.cameras_[i]? with
  | some c => Except.ok (some c)
  | none => Except.error Fault.checkFailed

/-- Modelled from the spec: `camera(index) -> Camera&`; the reference is the address of
the camera object, and an index out of range is a contract violation. -/
def NCamera.getCamera (rig : NCamera) (i : Nat) : Except Fault Nat :=
  match rig.cameras_[i]? with
  | some c => Except.ok c
  | none => Except.error Fault.checkFailed

/-- Modelled from the spec: the class VisualFrame, consumed only through
`getCameraGeometry() -> shared-handle-or-null` and `setCameraGeometry(handle)`.
`payload` stands for everything else a frame holds. -/
structure VisualFrame where
  camera_geometry_ : Option Nat
  payload : Nat
  deriving DecidableEq

/-- Modelled from the spec: `getCameraGeometry()`. -/
def VisualFrame.getCameraGeometry (f : VisualFrame) : Option Nat := f.camera_geometry_

/-- Modelled from the spec: `setCameraGeometry(handle)`. -/
def VisualFrame.setCameraGeometry (f : VisualFrame) (c : Option Nat) : VisualFrame :=
  { f with camera_geometry_ := c }

/-- The objects behind the shared handles: the rig at each rig address and the frame at
each frame address. -/
structure Heap where
  rigs : Nat → NCamera
  frames : Nat → VisualFrame

/-- The heap after `frame->setCameraGeometry(c)` on the frame object at address `f`. -/
def Heap.setCameraGeometry (h : Heap) (f : Nat) (c : Option Nat) : Heap :=
  { h with frames := Function.update h.frames f ((h.frames f).setCameraGeometry c) }

/-! ## VisualNFrame -/

/-- The data members of VisualNFrame: `id_`, `cameraRig_` and `frames_`. -/
structure VisualNFrame where
  id_ : Nat
  cameraRig_ : Option Nat
  frames_ : List (Option Nat)
  deriving DecidableEq

/-- `VisualNFrame::VisualNFrame()`: every member default-constructed; `defaultId` is the
value of a default-constructed id. -/
def VisualNFrame.mkDefault (defaultId : Nat) : VisualNFrame :=
  { id_ := defaultId, cameraRig_ := none, frames_ := [] }

/-- `VisualNFrame::VisualNFrame(id, num_frames)`. -/
def VisualNFrame.mkWithNumFrames (id : Nat) (num_frames : Nat) : VisualNFrame :=
  { id_ := id, cameraRig_ := none, frames_ := List.replicate num_frames none }

/-- `VisualNFrame::VisualNFrame(id, ncameras)`. -/
def VisualNFrame.mkWithRig (h : Heap) (id : Nat) (ncameras : Option Nat) :
    Except Fault VisualNFrame :=
  match ncameras with
  | none => Except.error Fault.checkFailed
  | some r =>
    Except.ok { id_ := id, cameraRig_ := some r,
                frames_ := List.replicate (h.rigs r).getNumCameras none }

/-- `VisualNFrame::VisualNFrame(ncameras)`; `randomId` is what `id_.randomize()` draws. -/
def VisualNFrame.mkWithRigRandomId (h : Heap) (randomId : Nat) (ncameras : Option Nat) :
    Except Fault VisualNFrame :=
  match ncameras with
  | none => Except.error Fault.checkFailed
  | some r =>
    Except.ok { id_ := randomId, cameraRig_ := some r,
                frames_ := List.replicate (h.rigs r).getNumCameras none }

/-- One pass of the loop body of `VisualNFrame::setNCameras` (lines 48-66) at index `i`. -/
def VisualNFrame.setNCamerasBody (rig : NCamera) (frames_ : List (Option Nat))
    (i : Nat) (h : Heap) : Except Fault Heap :=
  match frames_[i]? with
  | none => Except.error Fault.outOfRange
  | some (some f) =>
    match rig.getCameraShared i with
    | Except.error e => Except.error e
    | Except.ok c =>
      -- is_already_assigned
      if (h.frames f).getCameraGeometry = c then
        Except.ok h
      else if (h.frames f).getCameraGeometry ≠ none then
        Except.error Fault.checkFailed
      else
        let h1 := h.setCameraGeometry f c
        if (h1.frames f).getCameraGeometry = c then Except.ok h1
        else Except.error Fault.checkFailed
  | some none =>
    -- line 64 is reached with frames_[i] == nullptr
    Except.error Fault.nullDereference

/-- `VisualNFrame::setNCameras(ncameras)`. -/
def VisualNFrame.setNCameras (h : Heap) (vn : VisualNFrame) (ncameras : Option Nat) :
    Except Fault (Heap × VisualNFrame) :=
  match ncameras with
  | none => Except.error Fault.checkFailed
  | some r =>
    let vn1 : VisualNFrame := { vn with cameraRig_ := some r }
    if vn1.frames_.length ≠ (h.rigs r).numCameras then
      Except.error Fault.checkFailed
    else
      match forRange (VisualNFrame.setNCamerasBody (h.rigs r) vn1.frames_)
              vn1.frames_.length 0 h with
      | Except.error e => Except.error e
      | Except.ok h1 => Except.ok (h1, vn1)

/-- `VisualNFrame::setFrame(frameIndex, frame)`. -/
def VisualNFrame.setFrame (h : Heap) (vn : VisualNFrame) (frameIndex : Nat)
    (frame : Option Nat) : Except Fault VisualNFrame :=
  if ¬ frameIndex < vn.frames_.length then
    Except.error Fault.checkFailed
  else
    match vn.cameraRig_ with
    | some r =>
      match (h.rigs r).getCamera frameIndex with
      | Except.error e => Except.error e
      | Except.ok cam =>
        match frame with
        | none => Except.error Fault.nullDereference
        | some f =>
          if some cam = (h.frames f).getCameraGeometry then
            Except.ok { vn with frames_ := vn.frames_.set frameIndex frame }
          else
            Except.error Fault.checkFailed
    | none => Except.ok { vn with frames_ := vn.frames_.set frameIndex frame }

/-! ## The rig-binding invariant and the reachable states -/

/-- The rig-binding invariant: when a rig is present, there are as many slots as rig
cameras, and the frame in a populated slot `i` carries the very camera object that the
rig has at index `i`. -/
def RigBound (h : Heap) (vn : VisualNFrame) : Prop :=
  ∀ r : Nat, vn.cameraRig_ = some r →
    vn.frames_.length = (h.rigs r).numCameras ∧
    ∀ i f : Nat, vn.frames_[i]? = some (some f) →
      ∃ c : Nat, (h.rigs r).cameras_[i]? = some c ∧
        (h.frames f).getCameraGeometry = some c

/-- The states `(heap, frame set)` a VisualNFrame can be in: built by one of the four
constructors over any heap, then taken through returning calls of `setNCameras` and
`setFrame`.  The last rule lets another frame set on the same heap bind a rig in between,
which is the only other way a frame's camera changes. -/
inductive Reachable : Heap → VisualNFrame → Prop where
  | mkDefault (h : Heap) (defaultId : Nat) :
      Reachable h (VisualNFrame.mkDefault defaultId)
  | mkWithNumFrames (h : Heap) (id num_frames : Nat) :
      Reachable h (VisualNFrame.mkWithNumFrames id num_frames)
  | mkWithRig (h : Heap) (id : Nat) (ncameras : Option Nat) (vn : VisualNFrame) :
      VisualNFrame.mkWithRig h id ncameras = Except.ok vn → Reachable h vn
  | mkWithRigRandomId (h : Heap) (randomId : Nat) (ncameras : Option Nat)
      (vn : VisualNFrame) :
      VisualNFrame.mkWithRigRandomId h randomId ncameras = Except.ok vn → Reachable h vn
  | setNCameras (h : Heap) (vn : VisualNFrame) (ncameras : Option Nat) (h1 : Heap)
      (vn1 : VisualNFrame) :
      Reachable h vn → vn.setNCameras h ncameras = Except.ok (h1, vn1) → Reachable h1 vn1
  | setFrame (h : Heap) (vn : VisualNFrame) (frameIndex : Nat) (frame : Option Nat)
      (vn1 : VisualNFrame) :
      Reachable h vn → vn.setFrame h frameIndex frame = Except.ok vn1 → Reachable h vn1
  | setNCamerasElsewhere (h : Heap) (vn other : VisualNFrame) (ncameras : Option Nat)
      (h1 : Heap) (other1 : VisualNFrame) :
      Reachable h vn → other.setNCameras h ncameras = Except.ok (h1, other1) →
      Reachable h1 vn

/-! ## Concrete inputs -/

/-- A heap for the concrete runs.  Rig 0 has the cameras 10 and 11, rig 1 has the single
camera 10, rig 2 has the cameras 20 and 21.  Frame 0 carries camera 10, frame 1 carries
camera 11, frame 4 carries camera 20, and every other frame carries no camera. -/
def exampleHeap : Heap where
  rigs := fun r => if r = 1 then { cameras_ := [10] }
                   else if r = 2 then { cameras_ := [20, 21] }
                   else { cameras_ := [10, 11] }
  frames := fun a =>
    { camera_geometry_ := if a = 0 then some 10 else if a = 1 then some 11
                          else if a = 4 then some 20 else none,
      payload := a }

/-! ## VisualNFrame equality -/

/-- Modelled from the spec: the helper `aslam::checkSharedEqual` of
`aslam/common/predicates.h`, which is not among the source files.  Two shared handles are
shared-equal when both are null, or both are non-null and point to value-equal objects;
`valueEq` is the pointee's `operator==` and `deref` reads the object at an address. -/
def checkSharedEqual {T : Type} (valueEq : T → T → Bool) (deref : Nat → T)
    (lhs rhs : Option Nat) : Bool :=
  match lhs, rhs with
  | some a, some b => valueEq (deref a) (deref b)
  | none, none => true
  | _, _ => false

/-- The spec's wording of shared-equal, as a proposition: both null, or both non-null and
value-equal. -/
def SharedEqual {T : Type} (valueEq : T → T → Bool) (deref : Nat → T)
    (lhs rhs : Option Nat) : Prop :=
  (lhs = none ∧ rhs = none) ∨
  ∃ a b : Nat, lhs = some a ∧ rhs = some b ∧ valueEq (deref a) (deref b) = true

/-- One pass of the loop of `VisualNFrame::operator==` (lines 145-147): reads slot `i`
of both frame vectors and accumulates into `same`. -/
def VisualNFrame.operator_eq_body (frameEq : VisualFrame → VisualFrame → Bool) (h : Heap)
    (frames_ other_frames_ : List (Option Nat)) (i : Nat) (same : Bool) :
    Except Fault Bool :=
  match frames_[i]?, other_frames_[i]? with
  | some x, some y => Except.ok (same && checkSharedEqual frameEq h.frames x y)
  | _, _ => Except.error Fault.outOfRange

/-- `VisualNFrame::operator==(other)`.  `ncameraEq` and `frameEq` are the `operator==` of
NCamera and of VisualFrame, which are not among the source files. -/
def VisualNFrame.operator_eq (ncameraEq : NCamera → NCamera → Bool)
    (frameEq : VisualFrame → VisualFrame → Bool) (h : Heap)
    (this other : VisualNFrame) : Except Fault Bool :=
  let same0 := true
  let same1 := same0 && decide (this.id_ = other.id_)
  let same2 := same1 && checkSharedEqual ncameraEq h.rigs this.cameraRig_ other.cameraRig_
  let same3 := same2 && decide (this.frames_.length = other.frames_.length)
  if same3 then
    forRange (VisualNFrame.operator_eq_body frameEq h this.frames_ other.frames_)
      this.frames_.length 0 same3
  else
    Except.ok same3

/-! ## Camera -/

/-- `ProjectionResult::Status`, the closed set of projection outcomes. -/
inductive Status where
  | KEYPOINT_VISIBLE
  | KEYPOINT_OUTSIDE_IMAGE_BOX
  | POINT_BEHIND_CAMERA
  | PROJECTION_INVALID
  | UNINITIALIZED
  deriving DecidableEq

/-- Modelled from the spec: the class ProjectionResult, a value carrying one status. -/
structure ProjectionResult where
  status_ : Status
  deriving DecidableEq

/-- Modelled from the spec: the derived boolean, status == KEYPOINT_VISIBLE. -/
def ProjectionResult.isKeypointVisible (r : ProjectionResult) : Bool :=
  decide (r.status_ = Status.KEYPOINT_VISIBLE)

/-- `Eigen::Vector2d` over a scalar type `R`. -/
structure Vector2 (R : Type) where
  x : R
  y : R
  deriving DecidableEq

/-- `Eigen::Vector3d` over a scalar type `R`. -/
structure Vector3 (R : Type) where
  x : R
  y : R
  z : R
  deriving DecidableEq

/-- `Eigen::Vector4d` over a scalar type `R`. -/
structure Vector4 (R : Type) where
  x : R
  y : R
  z : R
  w : R
  deriving DecidableEq

/-- `Eigen::Matrix<double, 2, 3>`, by columns. -/
structure Matrix23 (R : Type) where
  col0 : Vector2 R
  col1 : Vector2 R
  col2 : Vector2 R
  deriving DecidableEq

/-- `Eigen::Matrix<double, 2, 4>`, by columns. -/
structure Matrix24 (R : Type) where
  col0 : Vector2 R
  col1 : Vector2 R
  col2 : Vector2 R
  col3 : Vector2 R
  deriving DecidableEq

/-- `point_4d.head<3>()`. -/
def Vector4.head3 {R : Type} (p : Vector4 R) : Vector3 R :=
  { x := p.x, y := p.y, z := p.z }

/-- Unary minus of a 3-vector, coefficient by coefficient. -/
def Vector3.neg {R : Type} [Neg R] (p : Vector3 R) : Vector3 R :=
  { x := -p.x, y := -p.y, z := -p.z }

/-- The data members of Camera.  `R` is the scalar type (`double` in the source), `D` the
type of distortion objects; `distortion_` is the owning pointer, null or a distortion. -/
structure Camera (R D : Type) where
  id_ : Nat
  label_ : String
  line_delay_nano_seconds_ : Nat
  image_width_ : Nat
  image_height_ : Nat
  intrinsics_ : List R
  distortion_ : Option D

/-- What the general `project3Functional` hands back: the returned result, the value
written to `out_keypoint`, and the value written to `out_jacobian_point` when that slot
is requested. -/
structure Project3Outputs (R : Type) where
  result : ProjectionResult
  out_keypoint : Vector2 R
  out_jacobian_point : Matrix23 R

/-- The virtual methods a concrete camera model supplies, which are not among the source
files.  `project3Functional self point_3d intrinsics_external
distortion_coefficients_external wantJpoint wantJintrinsics wantJdistortion` is the
general seven-argument form; an override is `none` when the pointer is null and a flag
is `true` when the matching Jacobian slot is non-null.  `backProject3 self keypoint`
gives the success flag and the value written to `out_point_3d`.  This is the view of the
spec's signatures, in which a call determines its outputs; `CameraVirtualsInPlace` is the
view through the output pointers, in which an implementation may leave an output
untouched. -/
structure CameraVirtuals (R D : Type) where
  project3Functional : Camera R D → Vector3 R → Option (List R) → Option (List R) →
    Bool → Bool → Bool → Project3Outputs R
  backProject3 : Camera R D → Vector2 R → Bool × Vector3 R

/-- `Camera::Camera(intrinsics, distortion, image_width, image_height)`; the id is
default-constructed (`defaultId`) and the distortion is moved in. -/
def Camera.mkWithDistortion {R D : Type} (defaultId : Nat) (intrinsics : List R)
    (distortion : Option D) (image_width image_height : Nat) : Camera R D :=
  { id_ := defaultId, label_ := "unnamed camera", line_delay_nano_seconds_ := 0,
    image_width_ := image_width, image_height_ := image_height,
    intrinsics_ := intrinsics, distortion_ := distortion }

/-- `Camera::Camera(intrinsics, image_width, image_height)`. -/
def Camera.mkWithoutDistortion {R D : Type} (defaultId : Nat) (intrinsics : List R)
    (image_width image_height : Nat) : Camera R D :=
  { id_ := defaultId, label_ := "unnamed camera", line_delay_nano_seconds_ := 0,
    image_width_ := image_width, image_height_ := image_height,
    intrinsics_ := intrinsics, distortion_ := none }

/-- `a == b` on two `Eigen::VectorXd`: Eigen asserts that the sizes agree, and then the
result is the conjunction of the coefficient-wise scalar comparisons `a[i] == b[i]`.  The
scalar `==` is whatever the scalar type provides; for IEEE doubles it is not reflexive
(NaN is unequal to itself). -/
def eigenVectorEq {R : Type} [BEq R] (a b : List R) : Except Fault Bool :=
  if a.length ≠ b.length then
    Except.error Fault.checkFailed
  else
    Except.ok ((List.zipWith (fun x y => x == y) a b).all id)

/-- `Camera::operator==(other)`: the intrinsics vectors are compared first, by Eigen's
`==`, then the line delays, the widths and the heights. -/
def Camera.operator_eq {R D : Type} [BEq R] (this other : Camera R D) :
    Except Fault Bool :=
  match eigenVectorEq this.intrinsics_ other.intrinsics_ with
  | Except.error e => Except.error e
  | Except.ok sameIntrinsics =>
    Except.ok (sameIntrinsics &&
      decide (this.line_delay_nano_seconds_ = other.line_delay_nano_seconds_) &&
      decide (this.image_width_ = other.image_width_) &&
      decide (this.image_height_ = other.image_height_))

/-- `Camera::project3(point_3d, out_keypoint)`, for a non-null `out_keypoint`: the
returned result and the keypoint written. -/
def Camera.project3 {R D : Type} (vt : CameraVirtuals R D) (this : Camera R D)
    (point_3d : Vector3 R) : ProjectionResult × Vector2 R :=
  let out := vt.project3Functional this point_3d none none false false false
  (out.result, out.out_keypoint)

/-- `Camera::project3(point_3d, out_keypoint, out_jacobian)`, for non-null output
pointers: the result, the keypoint and the Jacobian written. -/
def Camera.project3Jacobian {R D : Type} (vt : CameraVirtuals R D) (this : Camera R D)
    (point_3d : Vector3 R) : ProjectionResult × Vector2 R × Matrix23 R :=
  let out := vt.project3Functional this point_3d none none true false false
  (out.result, out.out_keypoint, out.out_jacobian_point)

/-- The four-argument `Camera::project3Functional(point_3d, intrinsics_external,
distortion_coefficients_external, out_keypoint)`, for a non-null `out_keypoint`. -/
def Camera.project3Functional4 {R D : Type} (vt : CameraVirtuals R D) (this : Camera R D)
    (point_3d : Vector3 R) (intrinsics_external : Option (List R))
    (distortion_coefficients_external : Option (List R)) :
    ProjectionResult × Vector2 R :=
  let out := vt.project3Functional this point_3d intrinsics_external
    distortion_coefficients_external false false false
  (out.result, out.out_keypoint)

/-- `Camera::project4(point_4d, out_keypoint)`, for a non-null `out_keypoint`. -/
def Camera.project4 {R D : Type} [Zero R] [Neg R] [LT R]
    [DecidableRel (fun a b : R => a < b)]
    (vt : CameraVirtuals R D) (this : Camera R D) (point_4d : Vector4 R) :
    ProjectionResult × Vector2 R :=
  let point_3d : Vector3 R :=
    if point_4d.w < 0 then point_4d.head3.neg else point_4d.head3
  Camera.project3 vt this point_3d

/-- `Eigen::Matrix2Xd::resize(Eigen::NoChange, cols)`: nothing happens when the size is
kept; otherwise the storage is reallocated and column `i` holds an indeterminate value,
`garbage i`. -/
def resizeColumns {R : Type} (m : List (Vector2 R)) (cols : Nat)
    (garbage : Nat → Vector2 R) : List (Vector2 R) :=
  if m.length = cols then m else (List.range cols).map garbage

/-- `std::vector<T>::resize(count, value)`: keeps the first `count` elements and appends
copies of `value` up to `count`. -/
def resizeVector {T : Type} (v : List T) (count : Nat) (value : T) : List T :=
  v.take count ++ List.replicate (count - v.length) value

/-- The virtual methods seen through their output pointers, as the vectorised wrappers
use them.  `project3Functional self point_3d intrinsics_external
distortion_coefficients_external out_keypoint wantJpoint wantJintrinsics wantJdistortion`
takes what `*out_keypoint` holds on entry and gives the result with what `*out_keypoint`
holds on exit; `backProject3 self keypoint out_point_3d` does the same for
`*out_point_3d`.  An implementation that leaves its output untouched on some input
returns the entry value there. -/
structure CameraVirtualsInPlace (R D : Type) where
  project3Functional : Camera R D → Vector3 R → Option (List R) → Option (List R) →
    Vector2 R → Bool → Bool → Bool → ProjectionResult × Vector2 R
  backProject3 : Camera R D → Vector2 R → Vector3 R → Bool × Vector3 R

/-- An implementation that determines its outputs, seen through its output pointers: the
entry value of the buffer is overwritten on every call. -/
def CameraVirtuals.inPlace {R D : Type} (vt : CameraVirtuals R D) :
    CameraVirtualsInPlace R D where
  project3Functional := fun self p io dc _ jp ji jd =>
    ((vt.project3Functional self p io dc jp ji jd).result,
     (vt.project3Functional self p io dc jp ji jd).out_keypoint)
  backProject3 := fun self k _ => vt.backProject3 self k

/-- `Camera::project3(point_3d, out_keypoint)` seen through its output pointer:
`out_keypoint` is what the caller's buffer holds on entry, the result carries what it
holds on exit. -/
def Camera.project3InPlace {R D : Type} (bv : CameraVirtualsInPlace R D)
    (this : Camera R D) (point_3d : Vector3 R) (out_keypoint : Vector2 R) :
    ProjectionResult × Vector2 R :=
  bv.project3Functional this point_3d none none out_keypoint false false false

/-- The state of the loop of `Camera::project3Vectorized`: the two output containers and
the local `projection` declared before the loop (line 159). -/
structure Project3VectorizedState (R : Type) where
  keypoints : List (Vector2 R)
  results : List ProjectionResult
  projection : Vector2 R

/-- One pass of the loop of `Camera::project3Vectorized` (lines 160-163): `project3`
writes through `&projection`, whose content survives from the pass before, and the
content of `projection` is then copied into column `i`. -/
def Camera.project3VectorizedBody {R D : Type} (bv : CameraVirtualsInPlace R D)
    (this : Camera R D) (points_3d : List (Vector3 R)) (i : Nat)
    (s : Project3VectorizedState R) : Except Fault (Project3VectorizedState R) :=
  match points_3d[i]? with
  | none => Except.error Fault.outOfRange
  | some p =>
    let r := Camera.project3InPlace bv this p s.projection
    if i < s.results.length ∧ i < s.keypoints.length then
      Except.ok { keypoints := s.keypoints.set i r.2, results := s.results.set i r.1,
                  projection := r.2 }
    else
      Except.error Fault.outOfRange

/-- `Camera::project3Vectorized(points_3d, out_keypoints, out_results)` for non-null
output pointers.  `points_3d` is the list of the columns of the 3xN matrix,
`out_keypoints` and `out_results` are the contents of the output containers on entry,
`projection` is the indeterminate content of the uninitialised local of line 159, and
the result is the contents of the containers on exit.  The `int` loop counter is a
natural number (N stays below 2^31). -/
def Camera.project3Vectorized {R D : Type} (bv : CameraVirtualsInPlace R D)
    (this : Camera R D) (points_3d : List (Vector3 R)) (out_keypoints : List (Vector2 R))
    (out_results : List ProjectionResult) (garbage : Nat → Vector2 R)
    (projection : Vector2 R) :
    Except Fault (List (Vector2 R) × List ProjectionResult) :=
  let keypoints := resizeColumns out_keypoints points_3d.length garbage
  let results := resizeVector out_results points_3d.length
    { status_ := Status.UNINITIALIZED }
  match forRange (Camera.project3VectorizedBody bv this points_3d) points_3d.length 0
      { keypoints := keypoints, results := results, projection := projection } with
  | Except.error e => Except.error e
  | Except.ok s => Except.ok (s.keypoints, s.results)

/-- A camera model over the integers for the concrete runs: a point with `z > 0` is
visible at pixel `(x, y)`, any other point lies behind the camera and gets pixel
`(0, 0)`; back-projection always succeeds. -/
def exampleVirtuals : CameraVirtuals Int Unit where
  project3Functional := fun _ p _ _ _ _ _ =>
    if 0 < p.z then
      { result := { status_ := Status.KEYPOINT_VISIBLE },
        out_keypoint := { x := p.x, y := p.y },
        out_jacobian_point :=
          { col0 := { x := 1, y := 0 }, col1 := { x := 0, y := 1 },
            col2 := { x := 0, y := 0 } } }
    else
      { result := { status_ := Status.POINT_BEHIND_CAMERA },
        out_keypoint := { x := 0, y := 0 },
        out_jacobian_point :=
          { col0 := { x := 0, y := 0 }, col1 := { x := 0, y := 0 },
            col2 := { x := 0, y := 0 } } }
  backProject3 := fun _ k => (true, { x := k.x, y := k.y, z := 1 })

/-- A camera over the integers for the concrete runs. -/
def exampleCamera : Camera Int Unit :=
  Camera.mkWithoutDistortion 0 [100, 100, 320, 240] 640 480

/-! ## VisualNFrame accessors -/

/-- `VisualNFrame::getFrame(frameIndex)`; the reference returned is the address of the
frame object. -/
def VisualNFrame.getFrame (vn : VisualNFrame) (frameIndex : Nat) : Except Fault Nat :=
  if ¬ frameIndex < vn.frames_.length then
    Except.error Fault.checkFailed
  else
    match vn.frames_[frameIndex]? with
    | none => Except.error Fault.outOfRange
    | some none => Except.error Fault.checkFailed
    | some (some f) => Except.ok f

/-- `VisualNFrame::getFrameMutable(frameIndex)`; the handle returned may be null. -/
def VisualNFrame.getFrameMutable (vn : VisualNFrame) (frameIndex : Nat) :
    Except Fault (Option Nat) :=
  if ¬ frameIndex < vn.frames_.length then
    Except.error Fault.checkFailed
  else
    match vn.frames_[frameIndex]? with
    | none => Except.error Fault.outOfRange
    | some slot => Except.ok slot

/-- `VisualNFrame::getNumFrames()`. -/
def VisualNFrame.getNumFrames (vn : VisualNFrame) : Nat := vn.frames_.length

/-- `VisualNFrame::isFrameNull(frameIndex)`: `static_cast<bool>` of a shared handle is
true when the handle is non-null. -/
def VisualNFrame.isFrameNull (vn : VisualNFrame) (frameIndex : Nat) : Except Fault Bool :=
  if ¬ frameIndex < vn.frames_.length then
    Except.error Fault.checkFailed
  else
    match vn.frames_[frameIndex]? with
    | none => Except.error Fault.outOfRange
    | some slot => Except.ok slot.isSome

/-! ## Camera: Jacobian of project4, back-projection, projectability -/

/-- `out_jacobian->setZero()` on a 2x4 matrix: every coefficient becomes zero. -/
def Matrix24.setZero {R : Type} [Zero R] (_m : Matrix24 R) : Matrix24 R :=
  { col0 := { x := 0, y := 0 }, col1 := { x := 0, y := 0 },
    col2 := { x := 0, y := 0 }, col3 := { x := 0, y := 0 } }

/-- `out_jacobian->topLeftCorner<2, 3>() = Je`: the first three columns are overwritten,
the fourth is kept. -/
def Matrix24.setTopLeftCorner23 {R : Type} (m : Matrix24 R) (Je : Matrix23 R) :
    Matrix24 R :=
  { col0 := Je.col0, col1 := Je.col1, col2 := Je.col2, col3 := m.col3 }

/-- A 2x4 matrix holds the 2x3 matrix `Je` in its first three columns and zero in its
fourth. -/
def Matrix24.EmbedsJacobian {R : Type} [Zero R] (J : Matrix24 R) (Je : Matrix23 R) : Prop :=
  J.col0 = Je.col0 ∧ J.col1 = Je.col1 ∧ J.col2 = Je.col2 ∧ J.col3 = { x := 0, y := 0 }

/-- `Camera::project4(point_4d, out_keypoint, out_jacobian)` for non-null output
pointers; `out_jacobian` is what the 2x4 matrix held on entry, and the result carries
what it holds on exit. -/
def Camera.project4Jacobian {R D : Type} [Zero R] [Neg R] [LT R]
    [DecidableRel (fun a b : R => a < b)]
    (vt : CameraVirtuals R D) (this : Camera R D) (point_4d : Vector4 R)
    (out_jacobian : Matrix24 R) : ProjectionResult × Vector2 R × Matrix24 R :=
  let point_3d : Vector3 R :=
    if point_4d.w < 0 then point_4d.head3.neg else point_4d.head3
  let r := Camera.project3Jacobian vt this point_3d
  let Je := r.2.2
  let j1 := out_jacobian.setZero
  let j2 := j1.setTopLeftCorner23 Je
  (r.1, r.2.1, j2)

/-- The comma initialiser `(*out_point4d) << point_3d, w`. -/
def Vector4.ofVector3 {R : Type} (p : Vector3 R) (w : R) : Vector4 R :=
  { x := p.x, y := p.y, z := p.z, w := w }

/-- `Camera::backProject4(keypoint, out_point4d)` for a non-null `out_point4d`: the
success flag and the 4-vector written. -/
def Camera.backProject4 {R D : Type} [Zero R] (vt : CameraVirtuals R D)
    (this : Camera R D) (keypoint : Vector2 R) : Bool × Vector4 R :=
  let r := vt.backProject3 this keypoint
  let success := r.1
  let point_3d := r.2
  (success, Vector4.ofVector3 point_3d 0)

/-- `Camera::isProjectable3(p)`. -/
def Camera.isProjectable3 {R D : Type} (vt : CameraVirtuals R D) (this : Camera R D)
    (p : Vector3 R) : Bool :=
  let ret := (Camera.project3 vt this p).1
  ret.isKeypointVisible

/-- `Camera::isProjectable4(ph)`. -/
def Camera.isProjectable4 {R D : Type} [Zero R] [Neg R] [LT R]
    [DecidableRel (fun a b : R => a < b)]
    (vt : CameraVirtuals R D) (this : Camera R D) (ph : Vector4 R) : Bool :=
  let ret := (Camera.project4 vt this ph).1
  ret.isKeypointVisible

/-- `Eigen::Matrix3Xd::resize(Eigen::NoChange, cols)`: nothing happens when the size is
kept; otherwise the storage is reallocated and column `i` holds an indeterminate value,
`garbage i`. -/
def resizeColumns3 {R : Type} (m : List (Vector3 R)) (cols : Nat)
    (garbage : Nat → Vector3 R) : List (Vector3 R) :=
  if m.length = cols then m else (List.range cols).map garbage

/-- The state of the loop of `Camera::backProject3Vectorized`: the two output
containers and the local `bearing` declared before the loop (line 173). -/
structure BackProject3VectorizedState (R : Type) where
  points : List (Vector3 R)
  success : List Bool
  bearing : Vector3 R

/-- One pass of the loop of `Camera::backProject3Vectorized` (lines 174-177):
`backProject3` writes through `&bearing`, whose content survives from the pass before,
and the content of `bearing` is then copied into column `i`. -/
def Camera.backProject3VectorizedBody {R D : Type} (bv : CameraVirtualsInPlace R D)
    (this : Camera R D) (keypoints : List (Vector2 R)) (i : Nat)
    (s : BackProject3VectorizedState R) : Except Fault (BackProject3VectorizedState R) :=
  match keypoints[i]? with
  | none => Except.error Fault.outOfRange
  | some k =>
    let r := bv.backProject3 this k s.bearing
    if i < s.success.length ∧ i < s.points.length then
      Except.ok { points := s.points.set i r.2, success := s.success.set i r.1,
                  bearing := r.2 }
    else
      Except.error Fault.outOfRange

/-- `Camera::backProject3Vectorized(keypoints, out_points_3d, out_success)` for non-null
output pointers.  `keypoints` is the list of the columns of the 2xN matrix,
`out_points_3d` and `out_success` are the contents of the output containers on entry,
`bearing` is the indeterminate content of the uninitialised local of line 173, and the
result is the contents of the containers on exit.  The `int` loop counter is a natural
number (N stays below 2^31). -/
def Camera.backProject3Vectorized {R D : Type} (bv : CameraVirtualsInPlace R D)
    (this : Camera R D) (keypoints : List (Vector2 R)) (out_points_3d : List (Vector3 R))
    (out_success : List Bool) (garbage : Nat → Vector3 R) (bearing : Vector3 R) :
    Except Fault (List (Vector3 R) × List Bool) :=
  let points := resizeColumns3 out_points_3d keypoints.length garbage
  let success := resizeVector out_success keypoints.length false
  match forRange (Camera.backProject3VectorizedBody bv this keypoints) keypoints.length 0
      { points := points, success := success, bearing := bearing } with
  | Except.error e => Except.error e
  | Except.ok s => Except.ok (s.points, s.success)

/-! ## Concrete inputs for the camera -/

/-- A camera model over the integers that leaves its outputs untouched where it has
nothing to report: a point with `z > 0` is visible at pixel `(x, y)`, for any other point
the result is POINT_BEHIND_CAMERA and `*out_keypoint` is not written; a pixel with
`x >= 0` back-projects to `(x, y, 1)`, for any other pixel the flag is false and
`*out_point_3d` is not written. -/
def staleVirtuals : CameraVirtualsInPlace Int Unit where
  project3Functional := fun _ p _ _ out_keypoint _ _ _ =>
    if 0 < p.z then ({ status_ := Status.KEYPOINT_VISIBLE }, { x := p.x, y := p.y })
    else ({ status_ := Status.POINT_BEHIND_CAMERA }, out_keypoint)
  backProject3 := fun _ k out_point_3d =>
    if 0 ≤ k.x then (true, { x := k.x, y := k.y, z := 1 })
    else (false, out_point_3d)

/-- A scalar type with the comparison of IEEE doubles, for the concrete runs: finite
values (integers here) and NaN. -/
inductive IeeeScalar where
  | finite (v : Int)
  | nan

/-- The `==` of IEEE doubles: NaN is unequal to everything, itself included. -/
def IeeeScalar.eq : IeeeScalar → IeeeScalar → Bool
  | IeeeScalar.finite a, IeeeScalar.finite b => decide (a = b)
  | _, _ => false

instance : BEq IeeeScalar := ⟨IeeeScalar.eq⟩

/-- A camera whose second intrinsic is NaN. -/
def nanCamera : Camera IeeeScalar Unit :=
  Camera.mkWithoutDistortion 0 [IeeeScalar.finite 100, IeeeScalar.nan] 640 480

/-! ## Lemmas on the binding loop -/

theorem getCameraShared_ok_iff (rig : NCamera) (i : Nat) (c : Option Nat) :
    rig.getCameraShared i = Except.ok c ↔ ∃ a, rig.cameras_[i]? = some a ∧ c = some a := by
  unfold NCamera.getCameraShared
  cases hc : rig.cameras_[i]? with
  | none => simp
  | some a => simp [eq_comm]

theorem getCamera_ok_iff (rig : NCamera) (i : Nat) (a : Nat) :
    rig.getCamera i = Except.ok a ↔ rig.cameras_[i]? = some a := by
  unfold NCamera.getCamera
  cases hc : rig.cameras_[i]? with
  | none => simp
  | some b => simp

@[simp] theorem frames_setCameraGeometry_same (h : Heap) (f : Nat) (c : Option Nat) :
    ((h.setCameraGeometry f c).frames f).camera_geometry_ = c := by
  simp [Heap.setCameraGeometry, VisualFrame.setCameraGeometry]

theorem frames_setCameraGeometry_other (h : Heap) (f g : Nat) (c : Option Nat) (hg : g ≠ f) :
    (h.setCameraGeometry f c).frames g = h.frames g := by
  simp [Heap.setCameraGeometry, Function.update_noteq hg]

@[simp] theorem rigs_setCameraGeometry (h : Heap) (f : Nat) (c : Option Nat) :
    (h.setCameraGeometry f c).rigs = h.rigs := rfl

/-- Exactly when one pass of the binding loop returns, and with which heap. -/
theorem setNCamerasBody_ok_iff (rig : NCamera) (fr : List (Option Nat)) (i : Nat)
    (h h1 : Heap) :
    VisualNFrame.setNCamerasBody rig fr i h = Except.ok h1 ↔
      ∃ f c, fr[i]? = some (some f) ∧ rig.cameras_[i]? = some c ∧
        (((h.frames f).camera_geometry_ = some c ∧ h1 = h) ∨
         ((h.frames f).camera_geometry_ = none ∧ h1 = h.setCameraGeometry f (some c))) := by
  unfold VisualNFrame.setNCamerasBody
  cases hf : fr[i]? with
  | none => simp
  | some o =>
    cases o with
    | none => simp
    | some f =>
      unfold NCamera.getCameraShared
      cases hc : rig.cameras_[i]? with
      | none => simp
      | some c =>
        simp only [VisualFrame.getCameraGeometry, frames_setCameraGeometry_same, if_true]
        by_cases h1c : (h.frames f).camera_geometry_ = some c
        · simp [h1c, eq_comm]
        · by_cases h2c : (h.frames f).camera_geometry_ = none
          · simp [h2c, eq_comm]
          · simp [h1c, h2c]

/-- A pass of the binding loop that returns leaves the rigs alone and leaves alone every
frame that already carries a camera. -/
theorem setNCamerasBody_preserves (rig : NCamera) (fr : List (Option Nat)) (i : Nat)
    (h h1 : Heap) (hok : VisualNFrame.setNCamerasBody rig fr i h = Except.ok h1) :
    h1.rigs = h.rigs ∧
    (∀ g, (h.frames g).camera_geometry_ ≠ none → h1.frames g = h.frames g) ∧
    (∀ g, (h1.frames g).payload = (h.frames g).payload) := by
  obtain ⟨f, c, _, _, hcase⟩ := (setNCamerasBody_ok_iff rig fr i h h1).1 hok
  rcases hcase with ⟨_, rfl⟩ | ⟨hnone, rfl⟩
  · exact ⟨rfl, fun _ _ => rfl, fun _ => rfl⟩
  · refine ⟨rfl, ?_, ?_⟩
    · intro g hg
      have hne : g ≠ f := by
        rintro rfl
        exact hg hnone
      exact frames_setCameraGeometry_other h f g _ hne
    · intro g
      by_cases hgf : g = f
      · subst hgf
        simp [Heap.setCameraGeometry, VisualFrame.setCameraGeometry]
      · rw [frames_setCameraGeometry_other h f g _ hgf]

/-- The whole binding loop, when it returns, leaves the rigs alone and leaves alone every
frame that carried a camera when the loop started. -/
theorem forRange_setNCamerasBody_preserves (rig : NCamera) (fr : List (Option Nat)) :
    ∀ (k i : Nat) (h h1 : Heap),
      forRange (VisualNFrame.setNCamerasBody rig fr) k i h = Except.ok h1 →
      h1.rigs = h.rigs ∧
      (∀ g, (h.frames g).camera_geometry_ ≠ none → h1.frames g = h.frames g) ∧
      (∀ g, (h1.frames g).payload = (h.frames g).payload) := by
  intro k
  induction k with
  | zero =>
    intro i h h1 hok
    simp only [forRange, Except.ok.injEq] at hok
    subst hok
    exact ⟨rfl, fun _ _ => rfl, fun _ => rfl⟩
  | succ k ih =>
    intro i h h1 hok
    simp only [forRange] at hok
    cases hb : VisualNFrame.setNCamerasBody rig fr i h with
    | error e => simp [hb] at hok
    | ok h2 =>
      simp only [hb] at hok
      obtain ⟨hr2, hf2, hp2⟩ := setNCamerasBody_preserves rig fr i h h2 hb
      obtain ⟨hr1, hf1, hp1⟩ := ih (i + 1) h2 h1 hok
      refine ⟨hr1.trans hr2, ?_, fun g => (hp1 g).trans (hp2 g)⟩
      intro g hg
      have h2g := hf2 g hg
      rw [hf1 g (by rw [h2g]; exact hg), h2g]

/-- Post-condition of the binding loop: every index it went through holds a frame whose
camera is the rig camera of that index. -/
theorem forRange_setNCamerasBody_post (rig : NCamera) (fr : List (Option Nat)) :
    ∀ (k i : Nat) (h h1 : Heap),
      forRange (VisualNFrame.setNCamerasBody rig fr) k i h = Except.ok h1 →
      ∀ j, i ≤ j → j < i + k →
        ∃ f c, fr[j]? = some (some f) ∧ rig.cameras_[j]? = some c ∧
          (h1.frames f).camera_geometry_ = some c := by
  intro k
  induction k with
  | zero =>
    intro i h h1 _ j hij hjk
    omega
  | succ k ih =>
    intro i h h1 hok j hij hjk
    simp only [forRange] at hok
    cases hb : VisualNFrame.setNCamerasBody rig fr i h with
    | error e => simp [hb] at hok
    | ok h2 =>
      simp only [hb] at hok
      by_cases hji : j = i
      · subst hji
        obtain ⟨f, c, hf, hc, hcase⟩ := (setNCamerasBody_ok_iff rig fr j h h2).1 hb
        have h2c : (h2.frames f).camera_geometry_ = some c := by
          rcases hcase with ⟨hs, rfl⟩ | ⟨_, rfl⟩
          · exact hs
          · simp
        obtain ⟨_, hf1, _⟩ := forRange_setNCamerasBody_preserves rig fr k (j + 1) h2 h1 hok
        refine ⟨f, c, hf, hc, ?_⟩
        rw [hf1 f (by rw [h2c]; simp), h2c]
      · exact ih (i + 1) h2 h1 hok j (by omega) (by omega)

/-- Re-running the binding loop over indices that are all bound already returns and
leaves the heap as it is. -/
theorem forRange_setNCamerasBody_bound (rig : NCamera) (fr : List (Option Nat)) (h : Heap) :
    ∀ (k i : Nat),
      (∀ j, i ≤ j → j < i + k →
        ∃ f c, fr[j]? = some (some f) ∧ rig.cameras_[j]? = some c ∧
          (h.frames f).camera_geometry_ = some c) →
      forRange (VisualNFrame.setNCamerasBody rig fr) k i h = Except.ok h := by
  intro k
  induction k with
  | zero => intro i _; rfl
  | succ k ih =>
    intro i hall
    have hb : VisualNFrame.setNCamerasBody rig fr i h = Except.ok h := by
      obtain ⟨f, c, hf, hc, hcam⟩ := hall i (le_refl i) (by omega)
      exact (setNCamerasBody_ok_iff rig fr i h h).2 ⟨f, c, hf, hc, Or.inl ⟨hcam, rfl⟩⟩
    simp only [forRange, hb]
    exact ih (i + 1) (fun j h1 h2 => hall j (by omega) (by omega))

/-- What a returning `setNCameras` returns: the given rig is stored, the slots are as
before, the counts agree, and the heap is the one the loop produced. -/
theorem setNCameras_ok_iff (h : Heap) (vn : VisualNFrame) (nc : Option Nat)
    (h1 : Heap) (vn1 : VisualNFrame) :
    VisualNFrame.setNCameras h vn nc = Except.ok (h1, vn1) ↔
      ∃ r, nc = some r ∧ vn.frames_.length = (h.rigs r).numCameras ∧
        vn1 = { vn with cameraRig_ := some r } ∧
        forRange (VisualNFrame.setNCamerasBody (h.rigs r) vn.frames_)
          vn.frames_.length 0 h = Except.ok h1 := by
  unfold VisualNFrame.setNCameras
  cases nc with
  | none => simp
  | some r =>
    simp only [Option.some.injEq, exists_eq_left']
    generalize forRange (VisualNFrame.setNCamerasBody (h.rigs r) vn.frames_)
      vn.frames_.length 0 h = res
    by_cases hlen : vn.frames_.length = (h.rigs r).numCameras
    · cases res with
      | error e => simp [hlen]
      | ok h2 =>
        simp only [hlen, ne_eq, not_true_eq_false, if_false, Except.ok.injEq,
          Prod.mk.injEq, true_and]
        constructor
        · rintro ⟨rfl, rfl⟩; exact ⟨rfl, rfl⟩
        · rintro ⟨rfl, rfl⟩; exact ⟨rfl, rfl⟩
    · simp [hlen]

theorem except_error_iff_not_ok {α : Type} (x : Except Fault α) :
    (∃ e, x = Except.error e) ↔ ¬ ∃ v, x = Except.ok v := by
  cases x with
  | error e => simp
  | ok v => simp

/-- Exactly when the binding loop returns, over indices that all hold a frame and all
have a rig camera: every frame met carries no camera or the rig camera of its index, and
a frame object met at two indices has the same rig camera at both. -/
theorem forRange_setNCamerasBody_ok_iff (rig : NCamera) (fr : List (Option Nat)) :
    ∀ (k i : Nat) (h : Heap),
      (∀ j, i ≤ j → j < i + k →
        (∃ f, fr[j]? = some (some f)) ∧ ∃ c, rig.cameras_[j]? = some c) →
      ((∃ h1, forRange (VisualNFrame.setNCamerasBody rig fr) k i h = Except.ok h1) ↔
        (∀ j f, i ≤ j → j < i + k → fr[j]? = some (some f) →
          (h.frames f).camera_geometry_ = none ∨
          (h.frames f).camera_geometry_ = rig.cameras_[j]?) ∧
        (∀ j1 j2 f, i ≤ j1 → j1 < i + k → i ≤ j2 → j2 < i + k →
          fr[j1]? = some (some f) → fr[j2]? = some (some f) →
          rig.cameras_[j1]? = rig.cameras_[j2]?)) := by
  intro k
  induction k with
  | zero =>
    intro i h _
    constructor
    · intro _
      exact ⟨fun j f h1 h2 => by omega, fun j1 j2 f h1 h2 => by omega⟩
    · intro _
      exact ⟨h, rfl⟩
  | succ k ih =>
    intro i h hH
    obtain ⟨⟨f, hf⟩, ⟨c, hc⟩⟩ := hH i (le_refl i) (by omega)
    have hH1 : ∀ j, i + 1 ≤ j → j < i + 1 + k →
        (∃ f, fr[j]? = some (some f)) ∧ ∃ c, rig.cameras_[j]? = some c :=
      fun j h1 h2 => hH j (by omega) (by omega)
    have key := setNCamerasBody_ok_iff rig fr i h
    simp only [hf, hc, Option.some.injEq, exists_and_left, exists_eq_left'] at key
    by_cases hsame : (h.frames f).camera_geometry_ = some c
    · -- already assigned: the heap goes on unchanged
      have hb : VisualNFrame.setNCamerasBody rig fr i h = Except.ok h :=
        (key h).2 (Or.inl ⟨hsame, rfl⟩)
      simp only [forRange, hb]
      rw [ih (i + 1) h hH1]
      constructor
      · rintro ⟨p1, p2⟩
        have hatI : ∀ j g, i + 1 ≤ j → j < i + 1 + k → fr[j]? = some (some g) → g = f →
            rig.cameras_[j]? = some c := by
          intro j g h1 h2 hg hgf
          subst hgf
          rcases p1 j g h1 h2 hg with hn | he
          · rw [hsame] at hn; cases hn
          · rw [← he, hsame]
        refine ⟨?_, ?_⟩
        · intro j g h1 h2 hg
          by_cases hji : j = i
          · subst hji
            rw [hf] at hg
            cases hg
            right; rw [hsame, hc]
          · exact p1 j g (by omega) (by omega) hg
        · intro j1 j2 g a1 a2 b1 b2 hg1 hg2
          by_cases h1i : j1 = i
          · by_cases h2i : j2 = i
            · rw [h1i, h2i]
            · subst h1i
              rw [hf] at hg1
              cases hg1
              rw [hc, hatI j2 f (by omega) (by omega) hg2 rfl]
          · by_cases h2i : j2 = i
            · subst h2i
              rw [hf] at hg2
              cases hg2
              rw [hc, hatI j1 f (by omega) (by omega) hg1 rfl]
            · exact p2 j1 j2 g (by omega) (by omega) (by omega) (by omega) hg1 hg2
      · rintro ⟨p1, p2⟩
        exact ⟨fun j g h1 h2 hg => p1 j g (by omega) (by omega) hg,
          fun j1 j2 g a1 a2 b1 b2 hg1 hg2 =>
            p2 j1 j2 g (by omega) (by omega) (by omega) (by omega) hg1 hg2⟩
    · by_cases hnone : (h.frames f).camera_geometry_ = none
      · -- no camera yet: the rig camera is assigned
        have hb : VisualNFrame.setNCamerasBody rig fr i h =
            Except.ok (h.setCameraGeometry f (some c)) :=
          (key _).2 (Or.inr ⟨hnone, rfl⟩)
        simp only [forRange, hb]
        rw [ih (i + 1) (h.setCameraGeometry f (some c)) hH1]
        constructor
        · rintro ⟨p1, p2⟩
          have hatI : ∀ j g, i + 1 ≤ j → j < i + 1 + k → fr[j]? = some (some g) → g = f →
              rig.cameras_[j]? = some c := by
            intro j g h1 h2 hg hgf
            subst hgf
            rcases p1 j g h1 h2 hg with hn | he
            · simp at hn
            · rw [← he]; simp
          refine ⟨?_, ?_⟩
          · intro j g h1 h2 hg
            by_cases hji : j = i
            · subst hji
              rw [hf] at hg
              cases hg
              left; exact hnone
            · by_cases hgf : g = f
              · subst hgf
                left; exact hnone
              · have := p1 j g (by omega) (by omega) hg
                rwa [frames_setCameraGeometry_other h f g _ hgf] at this
          · intro j1 j2 g a1 a2 b1 b2 hg1 hg2
            by_cases h1i : j1 = i
            · by_cases h2i : j2 = i
              · rw [h1i, h2i]
              · subst h1i
                rw [hf] at hg1
                cases hg1
                rw [hc, hatI j2 f (by omega) (by omega) hg2 rfl]
            · by_cases h2i : j2 = i
              · subst h2i
                rw [hf] at hg2
                cases hg2
                rw [hc, hatI j1 f (by omega) (by omega) hg1 rfl]
              · exact p2 j1 j2 g (by omega) (by omega) (by omega) (by omega) hg1 hg2
        · rintro ⟨p1, p2⟩
          refine ⟨?_, fun j1 j2 g a1 a2 b1 b2 hg1 hg2 =>
              p2 j1 j2 g (by omega) (by omega) (by omega) (by omega) hg1 hg2⟩
          intro j g h1 h2 hg
          by_cases hgf : g = f
          · subst hgf
            right
            rw [frames_setCameraGeometry_same, ← hc]
            exact p2 i j g (le_refl i) (by omega) (by omega) (by omega) hf hg
          · rw [frames_setCameraGeometry_other h f g _ hgf]
            exact p1 j g (by omega) (by omega) hg
      · -- another camera: the CHECK fires
        have hb : ∀ h1, VisualNFrame.setNCamerasBody rig fr i h ≠ Except.ok h1 := by
          intro h1 hok
          rcases (key h1).1 hok with ⟨hs, _⟩ | ⟨hn, _⟩
          · exact hsame hs
          · exact hnone hn
        constructor
        · rintro ⟨h1, hok⟩
          simp only [forRange] at hok
          cases hbb : VisualNFrame.setNCamerasBody rig fr i h with
          | error e => simp [hbb] at hok
          | ok h2 => exact absurd hbb (hb h2)
        · rintro ⟨p1, _⟩
          rcases p1 i f (le_refl i) (by omega) hf with hn | hs
          · exact absurd hn hnone
          · rw [hc] at hs
            exact absurd hs hsame

/-- On a populated slot, the only fault of a pass of the binding loop is a CHECK. -/
theorem setNCamerasBody_error_kind (rig : NCamera) (fr : List (Option Nat)) (i f : Nat)
    (h : Heap) (e : Fault) (hf : fr[i]? = some (some f))
    (herr : VisualNFrame.setNCamerasBody rig fr i h = Except.error e) :
    e = Fault.checkFailed := by
  unfold VisualNFrame.setNCamerasBody NCamera.getCameraShared at herr
  simp only [hf] at herr
  cases hc : rig.cameras_[i]? with
  | none =>
    simp only [hc, Except.error.injEq] at herr
    exact herr.symm
  | some c =>
    simp only [hc] at herr
    split at herr
    · cases herr
    · split at herr
      · simp only [Except.error.injEq] at herr
        exact herr.symm
      · split at herr
        · cases herr
        · simp only [Except.error.injEq] at herr
          exact herr.symm

/-- Over populated slots, the only fault of the binding loop is a CHECK. -/
theorem forRange_setNCamerasBody_error_kind (rig : NCamera) (fr : List (Option Nat)) :
    ∀ (k i : Nat) (h : Heap) (e : Fault),
      (∀ j, i ≤ j → j < i + k → ∃ f, fr[j]? = some (some f)) →
      forRange (VisualNFrame.setNCamerasBody rig fr) k i h = Except.error e →
      e = Fault.checkFailed := by
  intro k
  induction k with
  | zero =>
    intro i h e _ herr
    simp [forRange] at herr
  | succ k ih =>
    intro i h e hpop herr
    simp only [forRange] at herr
    cases hb : VisualNFrame.setNCamerasBody rig fr i h with
    | error e1 =>
      simp only [hb, Except.error.injEq] at herr
      subst herr
      obtain ⟨f, hf⟩ := hpop i (le_refl i) (by omega)
      exact setNCamerasBody_error_kind rig fr i f h e1 hf hb
    | ok h2 =>
      simp only [hb] at herr
      exact ih (i + 1) h2 e (fun j h1 h2 => hpop j (by omega) (by omega)) herr

/-! ## Lemmas on equality and on the vectorised projection -/

theorem checkSharedEqual_iff {T : Type} (valueEq : T → T → Bool) (deref : Nat → T)
    (lhs rhs : Option Nat) :
    checkSharedEqual valueEq deref lhs rhs = true ↔ SharedEqual valueEq deref lhs rhs := by
  unfold checkSharedEqual SharedEqual
  cases lhs <;> cases rhs <;> simp

/-- The conjunction of the coefficient-wise comparisons is true exactly when every pair
of coefficients at a common index compares equal. -/
theorem zipWith_beq_all_iff {R : Type} [BEq R] :
    ∀ (a b : List R),
      (List.zipWith (fun x y => x == y) a b).all id = true ↔
        ∀ (i : Nat) (x y : R), a[i]? = some x → b[i]? = some y → (x == y) = true := by
  intro a
  induction a with
  | nil =>
    intro b
    simp
  | cons x as ih =>
    intro b
    cases b with
    | nil => simp
    | cons y bs =>
      simp only [List.zipWith_cons_cons, List.all_cons, id_eq, Bool.and_eq_true, ih bs]
      constructor
      · rintro ⟨hxy, hrest⟩ i u v hu hv
        cases i with
        | zero =>
          simp only [List.getElem?_cons_zero, Option.some.injEq] at hu hv
          subst hu
          subst hv
          exact hxy
        | succ n =>
          simp only [List.getElem?_cons_succ] at hu hv
          exact hrest n u v hu hv
      · intro hall
        refine ⟨hall 0 x y (by simp) (by simp), ?_⟩
        intro i u v hu hv
        exact hall (i + 1) u v (by simpa using hu) (by simpa using hv)

/-- The comparison loop of `operator==` never reads past either vector when it runs over
indices below both sizes, and it ends with `true` exactly when it started with `true`
and every pair of slots it went through is shared-equal. -/
theorem forRange_operator_eq_body (frameEq : VisualFrame → VisualFrame → Bool) (h : Heap)
    (fa fb : List (Option Nat)) :
    ∀ (k i : Nat) (same : Bool), i + k ≤ fa.length → i + k ≤ fb.length →
      ∃ res, forRange (VisualNFrame.operator_eq_body frameEq h fa fb) k i same
          = Except.ok res ∧
        (res = true ↔ same = true ∧
          ∀ j x y, i ≤ j → j < i + k → fa[j]? = some x → fb[j]? = some y →
            checkSharedEqual frameEq h.frames x y = true) := by
  intro k
  induction k with
  | zero =>
    intro i same _ _
    refine ⟨same, rfl, ?_⟩
    constructor
    · intro hs
      exact ⟨hs, fun j x y h1 h2 => by omega⟩
    · intro hs
      exact hs.1
  | succ k ih =>
    intro i same ha hb
    have hia : i < fa.length := by omega
    have hib : i < fb.length := by omega
    have hbody : VisualNFrame.operator_eq_body frameEq h fa fb i same =
        Except.ok (same && checkSharedEqual frameEq h.frames fa[i] fb[i]) := by
      unfold VisualNFrame.operator_eq_body
      rw [List.getElem?_eq_getElem hia, List.getElem?_eq_getElem hib]
    obtain ⟨res, hres, hiff⟩ :=
      ih (i + 1) (same && checkSharedEqual frameEq h.frames fa[i] fb[i])
        (by omega) (by omega)
    refine ⟨res, ?_, ?_⟩
    · simp only [forRange, hbody]
      exact hres
    · rw [hiff, Bool.and_eq_true]
      constructor
      · rintro ⟨⟨hs, hi⟩, hrest⟩
        refine ⟨hs, ?_⟩
        intro j x y h1 h2 hx hy
        by_cases hji : j = i
        · subst hji
          rw [List.getElem?_eq_getElem hia] at hx
          rw [List.getElem?_eq_getElem hib] at hy
          cases hx
          cases hy
          exact hi
        · exact hrest j x y (by omega) (by omega) hx hy
      · rintro ⟨hs, hall⟩
        refine ⟨⟨hs, ?_⟩, ?_⟩
        · exact hall i _ _ (le_refl i) (by omega) (List.getElem?_eq_getElem hia)
            (List.getElem?_eq_getElem hib)
        · intro j x y h1 h2 hx hy
          exact hall j x y (by omega) (by omega) hx hy

theorem length_resizeColumns {R : Type} (m : List (Vector2 R)) (cols : Nat)
    (garbage : Nat → Vector2 R) : (resizeColumns m cols garbage).length = cols := by
  unfold resizeColumns
  split
  · assumption
  · simp

theorem length_resizeVector {T : Type} (v : List T) (count : Nat) (value : T) :
    (resizeVector v count value).length = count := by
  unfold resizeVector
  simp
  omega

/-- For an implementation that determines its outputs, the view through the output
pointer is the scalar `project3`, whatever the buffer held. -/
theorem project3InPlace_inPlace {R D : Type} (vt : CameraVirtuals R D) (cam : Camera R D)
    (p : Vector3 R) (b : Vector2 R) :
    Camera.project3InPlace vt.inPlace cam p b = Camera.project3 vt cam p :=
  rfl

/-- The projection loop over containers of the right size: it never indexes out of
range, keeps the sizes, leaves the earlier indices as they were, and at every index `j`
it goes through it writes what scalar `project3` gives on column `j` when the buffer
holds what the pass before left in it (the entry content of `projection` for the first
pass, the pixel written at `j - 1` afterwards). -/
theorem forRange_project3VectorizedBody {R D : Type} (bv : CameraVirtualsInPlace R D)
    (cam : Camera R D) (pts : List (Vector3 R)) :
    ∀ (k i : Nat) (s : Project3VectorizedState R),
      i + k ≤ pts.length → s.keypoints.length = pts.length →
      s.results.length = pts.length →
      ∃ s1,
        forRange (Camera.project3VectorizedBody bv cam pts) k i s = Except.ok s1 ∧
        s1.keypoints.length = pts.length ∧ s1.results.length = pts.length ∧
        (∀ (j : Nat) (p : Vector3 R), i ≤ j → j < i + k → pts[j]? = some p →
          ∃ b : Vector2 R, (j = i → b = s.projection) ∧
            (i < j → s1.keypoints[j - 1]? = some b) ∧
            s1.keypoints[j]? = some (Camera.project3InPlace bv cam p b).2 ∧
            s1.results[j]? = some (Camera.project3InPlace bv cam p b).1) ∧
        (∀ j, j < i → s1.keypoints[j]? = s.keypoints[j]? ∧
          s1.results[j]? = s.results[j]?) := by
  intro k
  induction k with
  | zero =>
    intro i s _ hk hr
    exact ⟨s, rfl, hk, hr, fun j p h1 h2 => by omega, fun j _ => ⟨rfl, rfl⟩⟩
  | succ k ih =>
    intro i s hi hk hr
    have hip : i < pts.length := by omega
    have hbody : Camera.project3VectorizedBody bv cam pts i s =
        Except.ok
          { keypoints := s.keypoints.set i (Camera.project3InPlace bv cam pts[i]
              s.projection).2,
            results := s.results.set i (Camera.project3InPlace bv cam pts[i]
              s.projection).1,
            projection := (Camera.project3InPlace bv cam pts[i] s.projection).2 } := by
      unfold Camera.project3VectorizedBody
      rw [List.getElem?_eq_getElem hip]
      simp only [hk, hr, hip, and_self, if_true]
    obtain ⟨s1, hrun, hk1, hr1, hnew, hold⟩ :=
      ih (i + 1)
        { keypoints := s.keypoints.set i (Camera.project3InPlace bv cam pts[i]
            s.projection).2,
          results := s.results.set i (Camera.project3InPlace bv cam pts[i]
            s.projection).1,
          projection := (Camera.project3InPlace bv cam pts[i] s.projection).2 }
        (by omega) (by simpa using hk) (by simpa using hr)
    have hat : s1.keypoints[i]? = some (Camera.project3InPlace bv cam pts[i]
          s.projection).2 ∧
        s1.results[i]? = some (Camera.project3InPlace bv cam pts[i] s.projection).1 := by
      obtain ⟨e1, e2⟩ := hold i (by omega)
      rw [e1, e2]
      constructor
      · show (s.keypoints.set i _)[i]? = _
        rw [List.getElem?_set_self]
        simp [hk, hip]
      · show (s.results.set i _)[i]? = _
        rw [List.getElem?_set_self]
        simp [hr, hip]
    refine ⟨s1, ?_, hk1, hr1, ?_, ?_⟩
    · simp only [forRange, hbody]
      exact hrun
    · intro j p h1 h2 hp
      by_cases hji : j = i
      · subst hji
        rw [List.getElem?_eq_getElem hip] at hp
        cases hp
        exact ⟨s.projection, fun _ => rfl, fun hlt => absurd hlt (lt_irrefl j), hat.1,
          hat.2⟩
      · obtain ⟨b, hb1, hb2, hb3, hb4⟩ := hnew j p (by omega) (by omega) hp
        refine ⟨b, fun e => absurd e hji, ?_, hb3, hb4⟩
        intro _
        by_cases hj1 : j = i + 1
        · have hb : b = (Camera.project3InPlace bv cam pts[i] s.projection).2 := hb1 hj1
          subst hj1
          rw [hb]
          simpa using hat.1
        · exact hb2 (by omega)
    · intro j hj
      obtain ⟨e1, e2⟩ := hold j (by omega)
      rw [e1, e2]
      have hne : i ≠ j := by omega
      exact ⟨List.getElem?_set_ne hne, List.getElem?_set_ne hne⟩

/-- What `project3Vectorized` returns: containers of size N in which index `i` holds what
scalar `project3` gives on column `i` when the buffer holds what pass `i - 1` left. -/
theorem project3Vectorized_ok {R D : Type} (bv : CameraVirtualsInPlace R D)
    (cam : Camera R D) (points_3d : List (Vector3 R)) (out_keypoints : List (Vector2 R))
    (out_results : List ProjectionResult) (garbage : Nat → Vector2 R)
    (projection : Vector2 R) :
    ∃ keypoints results,
      Camera.project3Vectorized bv cam points_3d out_keypoints out_results garbage
        projection = Except.ok (keypoints, results) ∧
      keypoints.length = points_3d.length ∧ results.length = points_3d.length ∧
      ∀ (i : Nat) (p : Vector3 R), points_3d[i]? = some p →
        ∃ b : Vector2 R, (i = 0 → b = projection) ∧
          (0 < i → keypoints[i - 1]? = some b) ∧
          keypoints[i]? = some (Camera.project3InPlace bv cam p b).2 ∧
          results[i]? = some (Camera.project3InPlace bv cam p b).1 := by
  obtain ⟨s1, hrun, hk1, hr1, hnew, _⟩ :=
    forRange_project3VectorizedBody bv cam points_3d points_3d.length 0
      { keypoints := resizeColumns out_keypoints points_3d.length garbage,
        results := resizeVector out_results points_3d.length
          { status_ := Status.UNINITIALIZED },
        projection := projection }
      (by omega) (length_resizeColumns _ _ _) (length_resizeVector _ _ _)
  refine ⟨s1.keypoints, s1.results, ?_, hk1, hr1, ?_⟩
  · unfold Camera.project3Vectorized
    simp only [hrun]
  · intro i p hp
    have hi : i < points_3d.length := by
      by_contra hcon
      rw [List.getElem?_eq_none (by omega)] at hp
      cases hp
    exact hnew i p (Nat.zero_le i) (by omega) hp

/-! ## Claims on VisualNFrame: rig binding -/

/-- C1. Rig-binding invariant: in every state reachable from a constructor through
returning calls of setNCameras and setFrame (a frame's camera changing only inside
setNCameras), if a rig is present then the number of slots equals the rig's number of
cameras, and the frame in every populated slot i carries, by identity of address, the
camera the rig has at index i. -/
theorem rig_binding_invariant (h : Heap) (vn : VisualNFrame) (hreach : Reachable h vn) :
    RigBound h vn := by
  induction hreach with
  | mkDefault h d =>
    unfold RigBound
    intro r hr
    simp [VisualNFrame.mkDefault] at hr
  | mkWithNumFrames h id n =>
    unfold RigBound
    intro r hr
    simp [VisualNFrame.mkWithNumFrames] at hr
  | mkWithRig h id nc vn hok =>
    unfold RigBound
    intro r hr
    cases nc with
    | none => simp [VisualNFrame.mkWithRig] at hok
    | some r0 =>
      simp only [VisualNFrame.mkWithRig, Except.ok.injEq] at hok
      subst hok
      simp only [Option.some.injEq] at hr
      subst hr
      refine ⟨by simp [NCamera.getNumCameras, NCamera.numCameras], ?_⟩
      intro i f hf
      simp only [List.getElem?_replicate] at hf
      split at hf <;> simp at hf
  | mkWithRigRandomId h id nc vn hok =>
    unfold RigBound
    intro r hr
    cases nc with
    | none => simp [VisualNFrame.mkWithRigRandomId] at hok
    | some r0 =>
      simp only [VisualNFrame.mkWithRigRandomId, Except.ok.injEq] at hok
      subst hok
      simp only [Option.some.injEq] at hr
      subst hr
      refine ⟨by simp [NCamera.getNumCameras, NCamera.numCameras], ?_⟩
      intro i f hf
      simp only [List.getElem?_replicate] at hf
      split at hf <;> simp at hf
  | setNCameras h vn nc h1 vn1 _ hok _ =>
    obtain ⟨r, rfl, hlen, rfl, hloop⟩ := (setNCameras_ok_iff h vn _ h1 vn1).1 hok
    obtain ⟨hrigs, _, _⟩ :=
      forRange_setNCamerasBody_preserves _ _ _ _ _ _ hloop
    unfold RigBound
    intro r1 hr1
    simp only [Option.some.injEq] at hr1
    subst hr1
    rw [hrigs]
    refine ⟨hlen, ?_⟩
    intro i f hf
    have hf2 : vn.frames_[i]? = some (some f) := hf
    have hi : i < vn.frames_.length := by
      by_contra hcon
      rw [List.getElem?_eq_none (by omega)] at hf2
      cases hf2
    obtain ⟨f1, c, hf1, hc, hcam⟩ :=
      forRange_setNCamerasBody_post _ _ _ _ _ _ hloop i (Nat.zero_le i) (by omega)
    rw [hf2] at hf1
    cases hf1
    exact ⟨c, hc, hcam⟩
  | setFrame h vn i fr vn1 _ hok ih =>
    unfold RigBound
    intro r hr
    unfold VisualNFrame.setFrame at hok
    by_cases hi : i < vn.frames_.length
    · simp only [hi, not_true_eq_false, if_false] at hok
      cases hrig : vn.cameraRig_ with
      | none =>
        simp only [hrig, Except.ok.injEq] at hok
        subst hok
        simp [hrig] at hr
      | some r0 =>
        simp only [hrig] at hok
        cases hcam : (h.rigs r0).getCamera i with
        | error e => simp [hcam] at hok
        | ok cam =>
          simp only [hcam] at hok
          cases fr with
          | none => simp at hok
          | some f0 =>
            simp only at hok
            split at hok
            · rename_i heq
              simp only [Except.ok.injEq] at hok
              subst hok
              simp only [hrig, Option.some.injEq] at hr
              subst hr
              obtain ⟨hlen, hslots⟩ := ih r0 hrig
              refine ⟨by simpa using hlen, ?_⟩
              intro j f hf
              simp only [List.getElem?_set] at hf
              by_cases hji : i = j
              · subst hji
                simp only [if_true, hi] at hf
                cases hf
                exact ⟨cam, (getCamera_ok_iff _ _ _).1 hcam, heq.symm⟩
              · simp only [hji, if_false] at hf
                exact hslots j f hf
            · simp at hok
    · simp [hi] at hok
  | setNCamerasElsewhere h vn other nc h1 other1 _ hok ih =>
    obtain ⟨r, rfl, _, rfl, hloop⟩ := (setNCameras_ok_iff h other _ h1 _).1 hok
    obtain ⟨hrigs, hkeep, _⟩ :=
      forRange_setNCamerasBody_preserves _ _ _ _ _ _ hloop
    unfold RigBound
    intro r1 hr1
    obtain ⟨hlen, hslots⟩ := ih r1 hr1
    rw [hrigs]
    refine ⟨hlen, ?_⟩
    intro i f hf
    obtain ⟨c, hc, hcam⟩ := hslots i f hf
    refine ⟨c, hc, ?_⟩
    have : (h.frames f).camera_geometry_ ≠ none := by
      rw [show (h.frames f).camera_geometry_ = some c from hcam]; simp
    rw [VisualFrame.getCameraGeometry, hkeep f this]
    exact hcam

/-- C1, at a concrete run: a frame set of two slots takes the camera-less frames 2 and 3,
then binds rig 0; the state reached satisfies the invariant. -/
theorem rig_binding_invariant_witness :
    RigBound ((exampleHeap.setCameraGeometry 2 (some 10)).setCameraGeometry 3 (some 11))
      { id_ := 5, cameraRig_ := some 0, frames_ := [some 2, some 3] } :=
  rig_binding_invariant _ _
    (Reachable.setNCameras exampleHeap
      { id_ := 5, cameraRig_ := none, frames_ := [some 2, some 3] } (some 0) _ _
      (Reachable.setFrame exampleHeap
        { id_ := 5, cameraRig_ := none, frames_ := [some 2, none] } 1 (some 3) _
        (Reachable.setFrame exampleHeap (VisualNFrame.mkWithNumFrames 5 2) 0 (some 2) _
          (Reachable.mkWithNumFrames exampleHeap 5 2) rfl)
        rfl)
      rfl)

/-- C2. With a rig present, an index i below the frame count and a non-null frame f,
setFrame(i, f) returns exactly when the camera f carries is, by address, the camera the
rig has at index i; otherwise its CHECK fires; and when it returns, slot i holds f. -/
theorem setFrame_with_rig_iff_same_camera (h : Heap) (vn : VisualNFrame) (r i f : Nat)
    (hrig : vn.cameraRig_ = some r) (hi : i < vn.frames_.length) :
    ((∃ vn1, vn.setFrame h i (some f) = Except.ok vn1) ↔
      ∃ c : Nat, (h.rigs r).cameras_[i]? = some c ∧
        (h.frames f).getCameraGeometry = some c) ∧
    ((¬ ∃ c : Nat, (h.rigs r).cameras_[i]? = some c ∧
        (h.frames f).getCameraGeometry = some c) →
      vn.setFrame h i (some f) = Except.error Fault.checkFailed) ∧
    (∀ vn1, vn.setFrame h i (some f) = Except.ok vn1 →
      vn1.frames_[i]? = some (some f)) := by
  unfold VisualNFrame.setFrame NCamera.getCamera
  simp only [hi, not_true_eq_false, if_false, hrig]
  cases hc : (h.rigs r).cameras_[i]? with
  | none => simp
  | some c =>
    simp only [Option.some.injEq, exists_eq_left']
    by_cases hcam : some c = (h.frames f).getCameraGeometry
    · simp [hcam.symm, hi]
    · have hcam2 : ¬ (h.frames f).getCameraGeometry = some c := fun e => hcam e.symm
      simp [hcam, hcam2]

/-- C2, at a concrete input: rig 0 bound, slot 0, frame 0 carrying camera 10. -/
theorem setFrame_with_rig_iff_same_camera_witness :
    ((∃ vn1, VisualNFrame.setFrame exampleHeap
        { id_ := 5, cameraRig_ := some 0, frames_ := [none, none] } 0 (some 0)
          = Except.ok vn1) ↔
      ∃ c : Nat, (exampleHeap.rigs 0).cameras_[0]? = some c ∧
        (exampleHeap.frames 0).getCameraGeometry = some c) ∧
    ((¬ ∃ c : Nat, (exampleHeap.rigs 0).cameras_[0]? = some c ∧
        (exampleHeap.frames 0).getCameraGeometry = some c) →
      VisualNFrame.setFrame exampleHeap
        { id_ := 5, cameraRig_ := some 0, frames_ := [none, none] } 0 (some 0)
          = Except.error Fault.checkFailed) ∧
    (∀ vn1, VisualNFrame.setFrame exampleHeap
        { id_ := 5, cameraRig_ := some 0, frames_ := [none, none] } 0 (some 0)
          = Except.ok vn1 →
      vn1.frames_[0]? = some (some 0)) :=
  setFrame_with_rig_iff_same_camera exampleHeap
    { id_ := 5, cameraRig_ := some 0, frames_ := [none, none] } 0 0 0 rfl (by decide)

/-- C3, as stated, fails when one frame object sits in two slots: frame 2 carries no
camera and is put into both slots by two calls of setFrame, rig 0 has the distinct
cameras 10 and 11; no slot holds a frame with a non-null camera differing from the
rig's, yet setNCameras fails (the first pass gives frame 2 the camera 10, the second
finds it differing from camera 11). -/
theorem setNCameras_fails_on_frame_in_two_slots :
    Reachable exampleHeap { id_ := 5, cameraRig_ := none, frames_ := [some 2, some 2] } ∧
    (∀ i, i < 2 → ∃ f : Nat, [some 2, some 2][i]? = some (some f)) ∧
    [some 2, some 2].length = (exampleHeap.rigs 0).numCameras ∧
    VisualNFrame.setNCameras exampleHeap
      { id_ := 5, cameraRig_ := none, frames_ := [some 2, some 2] } (some 0)
        = Except.error Fault.checkFailed ∧
    ¬ ∃ i f c : Nat, [some 2, some 2][i]? = some (some f) ∧
        (exampleHeap.frames f).getCameraGeometry = some c ∧
        (exampleHeap.rigs 0).cameras_[i]? ≠ some c := by
  refine ⟨?_, ?_, rfl, rfl, ?_⟩
  · exact Reachable.setFrame exampleHeap
      { id_ := 5, cameraRig_ := none, frames_ := [some 2, none] } 1 (some 2) _
      (Reachable.setFrame exampleHeap (VisualNFrame.mkWithNumFrames 5 2) 0 (some 2) _
        (Reachable.mkWithNumFrames exampleHeap 5 2) rfl)
      rfl
  · intro i hi
    interval_cases i <;> exact ⟨2, rfl⟩
  · rintro ⟨i, f, c, hf, hcam, _⟩
    have hi : i < 2 := by
      by_contra hcon
      rw [List.getElem?_eq_none (by simpa using hcon)] at hf
      cases hf
    have hf2 : f = 2 := by
      interval_cases i <;> simpa using hf.symm
    subst hf2
    simp [exampleHeap, VisualFrame.getCameraGeometry] at hcam

/-- C3, amended. For a frame set whose slots are all populated and a non-null rig with as
many cameras as there are slots, setNCameras fails exactly when some slot i holds a frame
carrying a non-null camera that is not the rig's camera at index i, or one frame object
sits in two slots whose rig cameras differ; and the failure is a CHECK. -/
theorem setNCameras_fails_iff (h : Heap) (vn : VisualNFrame) (r : Nat)
    (hpop : ∀ i, i < vn.frames_.length → ∃ f : Nat, vn.frames_[i]? = some (some f))
    (hlen : vn.frames_.length = (h.rigs r).numCameras) :
    ((∃ e, vn.setNCameras h (some r) = Except.error e) ↔
      (∃ i f c : Nat, vn.frames_[i]? = some (some f) ∧
          (h.frames f).getCameraGeometry = some c ∧
          (h.rigs r).cameras_[i]? ≠ some c) ∨
      (∃ i j f : Nat, vn.frames_[i]? = some (some f) ∧ vn.frames_[j]? = some (some f) ∧
          (h.rigs r).cameras_[i]? ≠ (h.rigs r).cameras_[j]?)) ∧
    (∀ e, vn.setNCameras h (some r) = Except.error e → e = Fault.checkFailed) := by
  have hlt : ∀ (i : Nat) (o : Option Nat), vn.frames_[i]? = some o →
      i < vn.frames_.length := by
    intro i o ho
    by_contra hcon
    rw [List.getElem?_eq_none (by omega)] at ho
    cases ho
  have hH : ∀ j, 0 ≤ j → j < 0 + vn.frames_.length →
      (∃ f, vn.frames_[j]? = some (some f)) ∧ ∃ c, (h.rigs r).cameras_[j]? = some c := by
    intro j _ hj
    refine ⟨hpop j (by omega), ?_⟩
    have hj2 : j < (h.rigs r).cameras_.length := by
      have := hlen
      unfold NCamera.numCameras at this
      omega
    exact ⟨(h.rigs r).cameras_[j], List.getElem?_eq_getElem hj2⟩
  have hloop := forRange_setNCamerasBody_ok_iff (h.rigs r) vn.frames_ vn.frames_.length 0 h hH
  have hokiff : (∃ v, vn.setNCameras h (some r) = Except.ok v) ↔
      ∃ h1, forRange (VisualNFrame.setNCamerasBody (h.rigs r) vn.frames_)
        vn.frames_.length 0 h = Except.ok h1 := by
    constructor
    · rintro ⟨⟨h1, vn1⟩, hok⟩
      obtain ⟨r1, hr1, _, _, hl⟩ := (setNCameras_ok_iff h vn _ h1 vn1).1 hok
      cases hr1
      exact ⟨h1, hl⟩
    · rintro ⟨h1, hl⟩
      exact ⟨(h1, { vn with cameraRig_ := some r }),
        (setNCameras_ok_iff h vn _ h1 _).2 ⟨r, rfl, hlen, rfl, hl⟩⟩
  refine ⟨?_, ?_⟩
  · rw [except_error_iff_not_ok, hokiff, hloop]
    constructor
    · intro hnot
      by_contra hcon
      push_neg at hcon
      obtain ⟨hc1, hc2⟩ := hcon
      apply hnot
      refine ⟨?_, ?_⟩
      · intro j f _ _ hf
        cases hcam : (h.frames f).camera_geometry_ with
        | none => left; rfl
        | some c =>
          right
          exact (hc1 j f c hf hcam).symm
      · intro j1 j2 f _ _ _ _ hf1 hf2
        exact hc2 j1 j2 f hf1 hf2
    · rintro (⟨i, f, c, hf, hcam, hne⟩ | ⟨i, j, f, hfi, hfj, hne⟩)
      · rintro ⟨p1, _⟩
        have hcam2 : (h.frames f).camera_geometry_ = some c := hcam
        rcases p1 i f (Nat.zero_le i) (by have := hlt i _ hf; omega) hf with hn | hs
        · rw [hcam2] at hn; cases hn
        · rw [hcam2] at hs; exact hne hs.symm
      · rintro ⟨_, p2⟩
        exact hne (p2 i j f (Nat.zero_le i) (by have := hlt i _ hfi; omega)
          (Nat.zero_le j) (by have := hlt j _ hfj; omega) hfi hfj)
  · intro e herr
    unfold VisualNFrame.setNCameras at herr
    simp only [hlen, ne_eq, not_true_eq_false, if_false] at herr
    cases hl : forRange (VisualNFrame.setNCamerasBody (h.rigs r) vn.frames_)
        vn.frames_.length 0 h with
    | error e1 =>
      rw [hlen] at hl
      simp only [hl, Except.error.injEq] at herr
      subst herr
      rw [← hlen] at hl
      exact forRange_setNCamerasBody_error_kind (h.rigs r) vn.frames_ vn.frames_.length 0 h
        e1 (fun j _ hj => hpop j (by omega)) hl
    | ok h2 =>
      rw [hlen] at hl
      simp [hl] at herr

/-- C3 amended, at a concrete input: frames 0 and 4 in the two slots, rig 0; frame 4
carries camera 20, which is not the rig's camera 11 at index 1. -/
theorem setNCameras_fails_iff_witness :
    ((∃ e, VisualNFrame.setNCameras exampleHeap
        { id_ := 5, cameraRig_ := none, frames_ := [some 0, some 4] } (some 0)
          = Except.error e) ↔
      (∃ i f c : Nat, [some 0, some 4][i]? = some (some f) ∧
          (exampleHeap.frames f).getCameraGeometry = some c ∧
          (exampleHeap.rigs 0).cameras_[i]? ≠ some c) ∨
      (∃ i j f : Nat, [some 0, some 4][i]? = some (some f) ∧
          [some 0, some 4][j]? = some (some f) ∧
          (exampleHeap.rigs 0).cameras_[i]? ≠ (exampleHeap.rigs 0).cameras_[j]?)) ∧
    (∀ e, VisualNFrame.setNCameras exampleHeap
        { id_ := 5, cameraRig_ := none, frames_ := [some 0, some 4] } (some 0)
          = Except.error e → e = Fault.checkFailed) :=
  setNCameras_fails_iff exampleHeap
    { id_ := 5, cameraRig_ := none, frames_ := [some 0, some 4] } 0
    (fun i hi => by
      have hi2 : i < 2 := hi
      interval_cases i
      · exact ⟨0, rfl⟩
      · exact ⟨4, rfl⟩)
    rfl

/-- C4. setNCameras fails on its CHECK whenever the rig handle is null and whenever the
number of frame slots differs from the rig's number of cameras. -/
theorem setNCameras_null_or_count_mismatch (h : Heap) (vn : VisualNFrame)
    (ncameras : Option Nat)
    (hbad : ncameras = none ∨
      ∃ r, ncameras = some r ∧ vn.frames_.length ≠ (h.rigs r).numCameras) :
    vn.setNCameras h ncameras = Except.error Fault.checkFailed := by
  rcases hbad with rfl | ⟨r, rfl, hne⟩
  · rfl
  · simp [VisualNFrame.setNCameras, hne]

/-- C4, at a concrete input: three frame slots and rig 0, which has two cameras. -/
theorem setNCameras_null_or_count_mismatch_witness :
    (VisualNFrame.mkWithNumFrames 5 3).setNCameras exampleHeap (some 0)
      = Except.error Fault.checkFailed :=
  setNCameras_null_or_count_mismatch exampleHeap (VisualNFrame.mkWithNumFrames 5 3) (some 0)
    (Or.inr ⟨0, rfl, by decide⟩)

/-- C5. setNCameras returns whenever the rig is non-null with as many cameras as there
are slots, every slot is populated, every frame carries no camera or the rig's camera of
its index, and no frame object sits in two slots whose rig cameras differ.  Whenever it
returns: the stored rig is the given one, the slots (and the id) are as before, every
populated frame that carried no camera now carries the rig's camera of its index, every
populated frame that already carried the rig's camera of its index is the same object
with the same contents, and calling setNCameras again with the same rig returns and
changes neither the heap nor the frame set. -/
theorem setNCameras_success_effect (h : Heap) (vn : VisualNFrame)
    (ncameras : Option Nat) :
    (∀ r : Nat, ncameras = some r →
      vn.frames_.length = (h.rigs r).numCameras →
      (∀ i, i < vn.frames_.length → ∃ f : Nat, vn.frames_[i]? = some (some f)) →
      (∀ i f : Nat, vn.frames_[i]? = some (some f) →
        (h.frames f).getCameraGeometry = none ∨
        (h.frames f).getCameraGeometry = (h.rigs r).cameras_[i]?) →
      (∀ i j f : Nat, vn.frames_[i]? = some (some f) → vn.frames_[j]? = some (some f) →
        (h.rigs r).cameras_[i]? = (h.rigs r).cameras_[j]?) →
      ∃ h1, vn.setNCameras h ncameras
        = Except.ok (h1, { vn with cameraRig_ := some r })) ∧
    (∀ (h1 : Heap) (vn1 : VisualNFrame),
      vn.setNCameras h ncameras = Except.ok (h1, vn1) →
      ∃ r : Nat, ncameras = some r ∧
        vn1.cameraRig_ = some r ∧ vn1.frames_ = vn.frames_ ∧ vn1.id_ = vn.id_ ∧
        (∀ i f : Nat, vn.frames_[i]? = some (some f) →
          (h.frames f).getCameraGeometry = none →
          ∃ c : Nat, (h.rigs r).cameras_[i]? = some c ∧
            (h1.frames f).getCameraGeometry = some c) ∧
        (∀ i f c : Nat, vn.frames_[i]? = some (some f) →
          (h.rigs r).cameras_[i]? = some c →
          (h.frames f).getCameraGeometry = some c → h1.frames f = h.frames f) ∧
        vn1.setNCameras h1 ncameras = Except.ok (h1, vn1)) := by
  constructor
  · intro r hr hlen hpop hcam halias
    subst hr
    have hH : ∀ j, 0 ≤ j → j < 0 + vn.frames_.length →
        (∃ f, vn.frames_[j]? = some (some f)) ∧
          ∃ c, (h.rigs r).cameras_[j]? = some c := by
      intro j _ hj
      refine ⟨hpop j (by omega), ?_⟩
      have hj2 : j < (h.rigs r).cameras_.length := by
        have := hlen
        unfold NCamera.numCameras at this
        omega
      exact ⟨(h.rigs r).cameras_[j], List.getElem?_eq_getElem hj2⟩
    obtain ⟨h1, hloop⟩ :=
      (forRange_setNCamerasBody_ok_iff (h.rigs r) vn.frames_ vn.frames_.length 0 h hH).2
        ⟨fun j f _ _ hf => hcam j f hf,
         fun j1 j2 f _ _ _ _ hf1 hf2 => halias j1 j2 f hf1 hf2⟩
    exact ⟨h1, (setNCameras_ok_iff h vn _ h1 _).2 ⟨r, rfl, hlen, rfl, hloop⟩⟩
  · intro h1 vn1 hok
    obtain ⟨r, rfl, hlen, rfl, hloop⟩ := (setNCameras_ok_iff h vn _ h1 vn1).1 hok
    obtain ⟨hrigs, hkeep, _⟩ := forRange_setNCamerasBody_preserves _ _ _ _ _ _ hloop
    have hpost := forRange_setNCamerasBody_post _ _ _ _ _ _ hloop
    have hlt : ∀ (i : Nat) (o : Option Nat), vn.frames_[i]? = some o →
        i < vn.frames_.length := by
      intro i o ho
      by_contra hcon
      rw [List.getElem?_eq_none (by omega)] at ho
      cases ho
    refine ⟨r, rfl, rfl, rfl, rfl, ?_, ?_, ?_⟩
    · intro i f hf _
      obtain ⟨f1, c, hf1, hc, hcam⟩ :=
        hpost i (Nat.zero_le i) (by have := hlt i _ hf; omega)
      rw [hf] at hf1
      cases hf1
      exact ⟨c, hc, hcam⟩
    · intro i f c _ _ hcam
      apply hkeep f
      rw [show (h.frames f).camera_geometry_ = some c from hcam]
      simp
    · refine (setNCameras_ok_iff h1 _ _ h1 _).2 ⟨r, rfl, ?_, rfl, ?_⟩
      · rw [hrigs]; exact hlen
      · rw [hrigs]
        exact forRange_setNCamerasBody_bound (h.rigs r) vn.frames_ h1 vn.frames_.length 0
          (fun j h1j h2j => hpost j h1j h2j)

/-- C5, at a concrete input: frame 0 (already carrying camera 10) and frame 3 (carrying
no camera) fill the two slots of a frame set without a rig, and rig 0 is bound.  The call
returns, stores rig 0 and gives frame 3 the camera 11; frame 0 is untouched; the second
call returns the same state. -/
theorem setNCameras_success_effect_witness :
    VisualNFrame.setNCameras exampleHeap
        { id_ := 5, cameraRig_ := none, frames_ := [some 0, some 3] } (some 0)
      = Except.ok (exampleHeap.setCameraGeometry 3 (some 11),
          { id_ := 5, cameraRig_ := some 0, frames_ := [some 0, some 3] }) ∧
    (exampleHeap.frames 3).getCameraGeometry = none ∧
    ((exampleHeap.setCameraGeometry 3 (some 11)).frames 3).getCameraGeometry = some 11 ∧
    (exampleHeap.setCameraGeometry 3 (some 11)).frames 0 = exampleHeap.frames 0 ∧
    (∃ h1, VisualNFrame.setNCameras exampleHeap
        { id_ := 5, cameraRig_ := none, frames_ := [some 0, some 3] } (some 0)
      = Except.ok (h1, { id_ := 5, cameraRig_ := some 0, frames_ := [some 0, some 3] })) ∧
    ∃ r : Nat, some 0 = some r ∧
      (some 0 : Option Nat) = some r ∧ [some 0, some 3] = [some 0, some 3] ∧ 5 = 5 ∧
      (∀ i f : Nat, [some 0, some 3][i]? = some (some f) →
        (exampleHeap.frames f).getCameraGeometry = none →
        ∃ c : Nat, (exampleHeap.rigs r).cameras_[i]? = some c ∧
          (((exampleHeap.setCameraGeometry 3 (some 11)).frames f).getCameraGeometry
            = some c)) ∧
      (∀ i f c : Nat, [some 0, some 3][i]? = some (some f) →
        (exampleHeap.rigs r).cameras_[i]? = some c →
        (exampleHeap.frames f).getCameraGeometry = some c →
        (exampleHeap.setCameraGeometry 3 (some 11)).frames f = exampleHeap.frames f) ∧
      VisualNFrame.setNCameras (exampleHeap.setCameraGeometry 3 (some 11))
        { id_ := 5, cameraRig_ := some 0, frames_ := [some 0, some 3] } (some 0)
        = Except.ok (exampleHeap.setCameraGeometry 3 (some 11),
            { id_ := 5, cameraRig_ := some 0, frames_ := [some 0, some 3] }) :=
  ⟨rfl, rfl, rfl, rfl,
   (setNCameras_success_effect exampleHeap
      { id_ := 5, cameraRig_ := none, frames_ := [some 0, some 3] } (some 0)).1 0 rfl rfl
      (fun i hi => by
        have hi2 : i < 2 := hi
        interval_cases i
        · exact ⟨0, rfl⟩
        · exact ⟨3, rfl⟩)
      (fun i f hf => by
        rcases i with _ | _ | i
        · simp at hf
          subst hf
          right
          rfl
        · simp at hf
          subst hf
          left
          rfl
        · simp at hf)
      (fun i j f hi hj => by
        rcases i with _ | _ | i
        · rcases j with _ | _ | j
          · rfl
          · simp at hi hj
            omega
          · simp at hj
        · rcases j with _ | _ | j
          · simp at hi hj
            omega
          · rfl
          · simp at hj
        · simp at hi),
   (setNCameras_success_effect exampleHeap
      { id_ := 5, cameraRig_ := none, frames_ := [some 0, some 3] } (some 0)).2
      (exampleHeap.setCameraGeometry 3 (some 11))
      { id_ := 5, cameraRig_ := some 0, frames_ := [some 0, some 3] } rfl⟩

/-- C6 (the code diverges from the claim). Whenever some slot is empty, setNCameras does
not return, whatever the rig: the comparison after the `if` block of the loop
dereferences the null frame handle of an empty slot. -/
theorem setNCameras_faults_on_empty_slot (h : Heap) (vn : VisualNFrame)
    (ncameras : Option Nat) (i : Nat) (hempty : vn.frames_[i]? = some none) :
    ∃ e, vn.setNCameras h ncameras = Except.error e := by
  rw [except_error_iff_not_ok]
  rintro ⟨⟨h1, vn1⟩, hok⟩
  obtain ⟨r, rfl, _, rfl, hloop⟩ := (setNCameras_ok_iff h vn _ h1 vn1).1 hok
  have hi : i < vn.frames_.length := by
    by_contra hcon
    rw [List.getElem?_eq_none (by omega)] at hempty
    cases hempty
  obtain ⟨f, _, hf, _, _⟩ :=
    forRange_setNCamerasBody_post _ _ _ _ _ _ hloop i (Nat.zero_le i) (by omega)
  rw [hempty] at hf
  cases hf

/-- C6, at the failing input: a frame set built with one (empty) slot and rig 1, which
has one camera; the call ends in a null dereference. -/
theorem setNCameras_faults_on_empty_slot_witness :
    (VisualNFrame.mkWithNumFrames 5 1).frames_[0]? = some none ∧
    (VisualNFrame.mkWithNumFrames 5 1).frames_.length = (exampleHeap.rigs 1).numCameras ∧
    (VisualNFrame.mkWithNumFrames 5 1).setNCameras exampleHeap (some 1)
      = Except.error Fault.nullDereference ∧
    ∃ e, (VisualNFrame.mkWithNumFrames 5 1).setNCameras exampleHeap (some 1)
      = Except.error e :=
  ⟨rfl, rfl, rfl,
    setNCameras_faults_on_empty_slot exampleHeap (VisualNFrame.mkWithNumFrames 5 1)
      (some 1) 0 rfl⟩

/-! ## Claims on Camera and on VisualNFrame equality -/

/-- C7. Homogeneous sign rule: project4 on (x,y,z,w) returns the outcome and pixel that
project3 returns on (-x,-y,-z) when w < 0, and those that project3 returns on (x,y,z)
when w >= 0, w = 0 included. -/
theorem project4_sign_rule {R D : Type} [Preorder R] [Zero R] [Neg R]
    [DecidableRel (fun a b : R => a < b)] (vt : CameraVirtuals R D) (cam : Camera R D)
    (x y z w : R) :
    (w < 0 → Camera.project4 vt cam { x := x, y := y, z := z, w := w }
      = Camera.project3 vt cam { x := -x, y := -y, z := -z }) ∧
    (0 ≤ w → Camera.project4 vt cam { x := x, y := y, z := z, w := w }
      = Camera.project3 vt cam { x := x, y := y, z := z }) := by
  constructor
  · intro hw
    simp [Camera.project4, hw, Vector4.head3, Vector3.neg]
  · intro hw
    have hnot : ¬ w < 0 := not_lt_of_le hw
    simp [Camera.project4, hnot, Vector4.head3]

/-- C7, at concrete inputs over the integers: w = -1 and w = 0. -/
theorem project4_sign_rule_witness :
    Camera.project4 exampleVirtuals exampleCamera { x := 1, y := 2, z := -3, w := -1 }
      = Camera.project3 exampleVirtuals exampleCamera { x := -1, y := -2, z := 3 } ∧
    Camera.project4 exampleVirtuals exampleCamera { x := 1, y := 2, z := 3, w := 0 }
      = Camera.project3 exampleVirtuals exampleCamera { x := 1, y := 2, z := 3 } :=
  ⟨(project4_sign_rule exampleVirtuals exampleCamera 1 2 (-3) (-1)).1 (by decide),
   (project4_sign_rule exampleVirtuals exampleCamera 1 2 3 0).2 (by decide)⟩

/-- C8, as stated, fails for a camera whose project3 leaves the output pixel untouched
for a point behind the camera.  The wrapper passes the same local `projection` on every
pass, so column 1 (behind the camera) comes back with the pixel of column 0, here (1, 2)
and in a second run (7, 8), while scalar project3 on that column alone leaves the
caller's pixel, here (0, 0), as it is. -/
theorem project3Vectorized_stale_column :
    Camera.project3Vectorized staleVirtuals exampleCamera
        [{ x := 1, y := 2, z := 3 }, { x := 5, y := 5, z := -1 }] [] []
        (fun _ => { x := 0, y := 0 }) { x := 0, y := 0 }
      = Except.ok ([{ x := 1, y := 2 }, { x := 1, y := 2 }],
          [{ status_ := Status.KEYPOINT_VISIBLE },
           { status_ := Status.POINT_BEHIND_CAMERA }]) ∧
    Camera.project3InPlace staleVirtuals exampleCamera { x := 5, y := 5, z := -1 }
        { x := 0, y := 0 }
      = ({ status_ := Status.POINT_BEHIND_CAMERA }, { x := 0, y := 0 }) ∧
    Camera.project3Vectorized staleVirtuals exampleCamera
        [{ x := 7, y := 8, z := 3 }, { x := 5, y := 5, z := -1 }] [] []
        (fun _ => { x := 0, y := 0 }) { x := 0, y := 0 }
      = Except.ok ([{ x := 7, y := 8 }, { x := 7, y := 8 }],
          [{ status_ := Status.KEYPOINT_VISIBLE },
           { status_ := Status.POINT_BEHIND_CAMERA }]) ∧
    ({ x := 1, y := 2 } : Vector2 Int) ≠ { x := 0, y := 0 } ∧
    ({ x := 1, y := 2 } : Vector2 Int) ≠ { x := 7, y := 8 } :=
  ⟨rfl, rfl, rfl, by decide, by decide⟩

/-- C8, amended. For a camera whose project3 determines its outcome and the pixel it
writes from the point alone (what the output buffer held before does not matter), and
whatever the output containers and the local buffer held, project3Vectorized over the N
columns returns, never indexing out of range, exactly N pixel columns and exactly N
outcomes, and for every i < N the i-th pixel and the i-th outcome are those scalar
project3 returns on column i, into any buffer. -/
theorem project3Vectorized_columnwise {R D : Type} (bv : CameraVirtualsInPlace R D)
    (cam : Camera R D) (points_3d : List (Vector3 R)) (out_keypoints : List (Vector2 R))
    (out_results : List ProjectionResult) (garbage : Nat → Vector2 R)
    (projection : Vector2 R)
    (hwrites : ∀ (p : Vector3 R) (b1 b2 : Vector2 R),
      Camera.project3InPlace bv cam p b1 = Camera.project3InPlace bv cam p b2) :
    ∃ keypoints results,
      Camera.project3Vectorized bv cam points_3d out_keypoints out_results garbage
        projection = Except.ok (keypoints, results) ∧
      keypoints.length = points_3d.length ∧ results.length = points_3d.length ∧
      ∀ (i : Nat) (p : Vector3 R) (b : Vector2 R), points_3d[i]? = some p →
        keypoints[i]? = some (Camera.project3InPlace bv cam p b).2 ∧
        results[i]? = some (Camera.project3InPlace bv cam p b).1 := by
  obtain ⟨keypoints, results, hrun, hk, hr, hcol⟩ :=
    project3Vectorized_ok bv cam points_3d out_keypoints out_results garbage projection
  refine ⟨keypoints, results, hrun, hk, hr, ?_⟩
  intro i p b hp
  obtain ⟨b0, _, _, h1, h2⟩ := hcol i p hp
  rw [hwrites p b b0]
  exact ⟨h1, h2⟩

/-- C8 amended, at a concrete input: the camera model of the concrete runs, which writes
its pixel on every call, two columns, and output containers that held other data. -/
theorem project3Vectorized_columnwise_witness :
    Camera.project3Vectorized exampleVirtuals.inPlace exampleCamera
        [{ x := 1, y := 2, z := 3 }, { x := 5, y := 5, z := -1 }]
        [{ x := 9, y := 9 }] [{ status_ := Status.PROJECTION_INVALID }]
        (fun _ => { x := 4, y := 4 }) { x := 6, y := 6 }
      = Except.ok ([{ x := 1, y := 2 }, { x := 0, y := 0 }],
          [{ status_ := Status.KEYPOINT_VISIBLE },
           { status_ := Status.POINT_BEHIND_CAMERA }]) ∧
    ∃ keypoints results,
      Camera.project3Vectorized exampleVirtuals.inPlace exampleCamera
        [{ x := 1, y := 2, z := 3 }, { x := 5, y := 5, z := -1 }]
        [{ x := 9, y := 9 }] [{ status_ := Status.PROJECTION_INVALID }]
        (fun _ => { x := 4, y := 4 }) { x := 6, y := 6 }
        = Except.ok (keypoints, results) ∧
      keypoints.length = 2 ∧ results.length = 2 ∧
      ∀ (i : Nat) (p : Vector3 Int) (b : Vector2 Int),
        [({ x := 1, y := 2, z := 3 } : Vector3 Int), { x := 5, y := 5, z := -1 }][i]?
          = some p →
        keypoints[i]? = some (Camera.project3InPlace exampleVirtuals.inPlace
          exampleCamera p b).2 ∧
        results[i]? = some (Camera.project3InPlace exampleVirtuals.inPlace
          exampleCamera p b).1 :=
  ⟨rfl,
   project3Vectorized_columnwise exampleVirtuals.inPlace exampleCamera
     [{ x := 1, y := 2, z := 3 }, { x := 5, y := 5, z := -1 }]
     [{ x := 9, y := 9 }] [{ status_ := Status.PROJECTION_INVALID }]
     (fun _ => { x := 4, y := 4 }) { x := 6, y := 6 } (fun _ _ _ => rfl)⟩

/-- C9. `a == b` returns, without reading a slot out of range, and returns true exactly
when the ids are equal, the rigs are shared-equal, the frame counts are equal and the
slots a[i], b[i] are shared-equal at every index i. -/
theorem visualNFrame_operator_eq_iff (ncameraEq : NCamera → NCamera → Bool)
    (frameEq : VisualFrame → VisualFrame → Bool) (h : Heap) (a b : VisualNFrame) :
    ∃ res, VisualNFrame.operator_eq ncameraEq frameEq h a b = Except.ok res ∧
      (res = true ↔
        a.id_ = b.id_ ∧
        SharedEqual ncameraEq h.rigs a.cameraRig_ b.cameraRig_ ∧
        a.frames_.length = b.frames_.length ∧
        ∀ (i : Nat) (x y : Option Nat), a.frames_[i]? = some x →
          b.frames_[i]? = some y → SharedEqual frameEq h.frames x y) := by
  unfold VisualNFrame.operator_eq
  simp only [Bool.true_and]
  by_cases hsame : (decide (a.id_ = b.id_) &&
      checkSharedEqual ncameraEq h.rigs a.cameraRig_ b.cameraRig_ &&
      decide (a.frames_.length = b.frames_.length)) = true
  · rw [if_pos hsame]
    simp only [Bool.and_eq_true, decide_eq_true_eq] at hsame
    obtain ⟨⟨hid, hrig⟩, hlen⟩ := hsame
    obtain ⟨res, hres, hiff⟩ := forRange_operator_eq_body frameEq h a.frames_ b.frames_
      a.frames_.length 0 (decide (a.id_ = b.id_) &&
        checkSharedEqual ncameraEq h.rigs a.cameraRig_ b.cameraRig_ &&
        decide (a.frames_.length = b.frames_.length)) (by omega) (by omega)
    refine ⟨res, hres, ?_⟩
    rw [hiff]
    constructor
    · rintro ⟨_, hall⟩
      refine ⟨hid, (checkSharedEqual_iff _ _ _ _).1 hrig, hlen, ?_⟩
      intro i x y hx hy
      have hi : i < a.frames_.length := by
        by_contra hcon
        rw [List.getElem?_eq_none (by omega)] at hx
        cases hx
      exact (checkSharedEqual_iff _ _ _ _).1 (hall i x y (Nat.zero_le i) (by omega) hx hy)
    · rintro ⟨_, _, _, hall⟩
      refine ⟨by simp [hid, hrig, hlen], ?_⟩
      intro j x y _ _ hx hy
      exact (checkSharedEqual_iff _ _ _ _).2 (hall j x y hx hy)
  · rw [if_neg hsame]
    refine ⟨_, rfl, ?_⟩
    constructor
    · intro htrue
      exact absurd htrue hsame
    · rintro ⟨hid, hrig, hlen, _⟩
      exfalso
      apply hsame
      simp [hid, (checkSharedEqual_iff _ _ _ _).2 hrig, hlen]

/-- C10, as stated, fails on a camera with a NaN intrinsic: a copy of it that differs
only in id and label has the same intrinsics vector, line delay, width and height, yet
`operator==` returns false, and the camera does not even compare equal to itself. -/
theorem camera_operator_eq_false_on_nan :
    ({ nanCamera with id_ := 1, label_ := "left" } : Camera IeeeScalar Unit).intrinsics_
      = nanCamera.intrinsics_ ∧
    ({ nanCamera with id_ := 1, label_ := "left" } :
        Camera IeeeScalar Unit).line_delay_nano_seconds_
      = nanCamera.line_delay_nano_seconds_ ∧
    ({ nanCamera with id_ := 1, label_ := "left" } : Camera IeeeScalar Unit).image_width_
      = nanCamera.image_width_ ∧
    ({ nanCamera with id_ := 1, label_ := "left" } : Camera IeeeScalar Unit).image_height_
      = nanCamera.image_height_ ∧
    Camera.operator_eq nanCamera { nanCamera with id_ := 1, label_ := "left" }
      = Except.ok false ∧
    Camera.operator_eq nanCamera nanCamera = Except.ok false :=
  ⟨rfl, rfl, rfl, rfl, rfl, rfl⟩

/-- C10, amended. For two cameras whose intrinsics vectors have the same size,
`operator==` returns, and returns true exactly when the intrinsics compare equal
coefficient by coefficient under the scalar `==` and the line delays, the image widths
and the image heights are equal; replacing id, label or distortion of either camera does
not change what `operator==` does; and a camera none of whose intrinsics is unequal to
itself (no NaN) compares equal to any copy of itself with another id and label. -/
theorem camera_operator_eq_iff {R D : Type} [BEq R] (a b : Camera R D) :
    (a.intrinsics_.length = b.intrinsics_.length →
      ∃ res, Camera.operator_eq a b = Except.ok res ∧
        (res = true ↔
          (∀ (i : Nat) (x y : R), a.intrinsics_[i]? = some x →
            b.intrinsics_[i]? = some y → (x == y) = true) ∧
          a.line_delay_nano_seconds_ = b.line_delay_nano_seconds_ ∧
          a.image_width_ = b.image_width_ ∧ a.image_height_ = b.image_height_)) ∧
    (∀ (ida idb : Nat) (la lb : String) (da db : Option D),
      Camera.operator_eq { a with id_ := ida, label_ := la, distortion_ := da }
        { b with id_ := idb, label_ := lb, distortion_ := db }
        = Camera.operator_eq a b) ∧
    ((∀ x : R, x ∈ a.intrinsics_ → (x == x) = true) →
      ∀ (id : Nat) (label : String),
        Camera.operator_eq a { a with id_ := id, label_ := label } = Except.ok true) := by
  have hmain : ∀ c d : Camera R D, c.intrinsics_.length = d.intrinsics_.length →
      Camera.operator_eq c d = Except.ok
        ((List.zipWith (fun x y => x == y) c.intrinsics_ d.intrinsics_).all id &&
          decide (c.line_delay_nano_seconds_ = d.line_delay_nano_seconds_) &&
          decide (c.image_width_ = d.image_width_) &&
          decide (c.image_height_ = d.image_height_)) := by
    intro c d hlen
    simp [Camera.operator_eq, eigenVectorEq, hlen]
  refine ⟨?_, ?_, ?_⟩
  · intro hlen
    refine ⟨_, hmain a b hlen, ?_⟩
    simp only [Bool.and_eq_true, decide_eq_true_eq, zipWith_beq_all_iff, and_assoc]
  · intro ida idb la lb da db
    rfl
  · intro hrefl cid clabel
    rw [hmain a { a with id_ := cid, label_ := clabel } rfl]
    have hall : (List.zipWith (fun x y => x == y) a.intrinsics_ a.intrinsics_).all id
        = true := by
      rw [zipWith_beq_all_iff]
      intro i x y hx hy
      rw [hx] at hy
      cases hy
      exact hrefl x (List.getElem?_mem hx)
    rw [hall]
    simp

/-- C10 amended, at a concrete input: the camera of the concrete runs, whose intrinsics
are integers, against a copy with another id and label. -/
theorem camera_operator_eq_iff_witness :
    Camera.operator_eq exampleCamera { exampleCamera with id_ := 7, label_ := "left" }
      = Except.ok true ∧
    ∃ res, Camera.operator_eq exampleCamera
        { exampleCamera with id_ := 7, label_ := "left" } = Except.ok res ∧
      (res = true ↔
        (∀ (i : Nat) (x y : Int), exampleCamera.intrinsics_[i]? = some x →
          exampleCamera.intrinsics_[i]? = some y → (x == y) = true) ∧
        exampleCamera.line_delay_nano_seconds_ = exampleCamera.line_delay_nano_seconds_ ∧
        exampleCamera.image_width_ = exampleCamera.image_width_ ∧
        exampleCamera.image_height_ = exampleCamera.image_height_) :=
  ⟨(camera_operator_eq_iff exampleCamera exampleCamera).2.2 (fun x _ => by simp) 7 "left",
   (camera_operator_eq_iff exampleCamera
      { exampleCamera with id_ := 7, label_ := "left" }).1 rfl⟩

/-! ## Claims on Camera: Jacobian of project4, back-projection, projectability -/

/-- C11. The 2x4 Jacobian project4 returns for (x,y,z,w) holds, in its first three
columns, the 2x3 Jacobian project3 returns for the point actually projected, (-x,-y,-z)
when w < 0 and (x,y,z) otherwise, and zero in its fourth column, whatever the matrix held
before; the outcome and the pixel are those of that project3 call. -/
theorem project4_jacobian_embedding {R D : Type} [Zero R] [Neg R] [LT R]
    [DecidableRel (fun a b : R => a < b)] (vt : CameraVirtuals R D) (cam : Camera R D)
    (x y z w : R) (out_jacobian : Matrix24 R) :
    (w < 0 →
      (Camera.project4Jacobian vt cam { x := x, y := y, z := z, w := w } out_jacobian).1
        = (Camera.project3Jacobian vt cam { x := -x, y := -y, z := -z }).1 ∧
      (Camera.project4Jacobian vt cam { x := x, y := y, z := z, w := w } out_jacobian).2.1
        = (Camera.project3Jacobian vt cam { x := -x, y := -y, z := -z }).2.1 ∧
      (Camera.project4Jacobian vt cam { x := x, y := y, z := z, w := w }
          out_jacobian).2.2.EmbedsJacobian
        (Camera.project3Jacobian vt cam { x := -x, y := -y, z := -z }).2.2) ∧
    (¬ w < 0 →
      (Camera.project4Jacobian vt cam { x := x, y := y, z := z, w := w } out_jacobian).1
        = (Camera.project3Jacobian vt cam { x := x, y := y, z := z }).1 ∧
      (Camera.project4Jacobian vt cam { x := x, y := y, z := z, w := w } out_jacobian).2.1
        = (Camera.project3Jacobian vt cam { x := x, y := y, z := z }).2.1 ∧
      (Camera.project4Jacobian vt cam { x := x, y := y, z := z, w := w }
          out_jacobian).2.2.EmbedsJacobian
        (Camera.project3Jacobian vt cam { x := x, y := y, z := z }).2.2) := by
  constructor
  · intro hw
    simp [Camera.project4Jacobian, hw, Vector4.head3, Vector3.neg, Matrix24.EmbedsJacobian,
      Matrix24.setTopLeftCorner23, Matrix24.setZero]
  · intro hw
    simp [Camera.project4Jacobian, hw, Vector4.head3, Matrix24.EmbedsJacobian,
      Matrix24.setTopLeftCorner23, Matrix24.setZero]

/-- C11, at concrete inputs over the integers: w = -1 and w = 2, with a non-zero matrix
on entry. -/
theorem project4_jacobian_embedding_witness :
    ((Camera.project4Jacobian exampleVirtuals exampleCamera
        { x := 1, y := 2, z := -3, w := -1 }
        { col0 := { x := 7, y := 7 }, col1 := { x := 7, y := 7 },
          col2 := { x := 7, y := 7 }, col3 := { x := 7, y := 7 } }).1
        = (Camera.project3Jacobian exampleVirtuals exampleCamera
            { x := -1, y := -2, z := 3 }).1 ∧
      (Camera.project4Jacobian exampleVirtuals exampleCamera
        { x := 1, y := 2, z := -3, w := -1 }
        { col0 := { x := 7, y := 7 }, col1 := { x := 7, y := 7 },
          col2 := { x := 7, y := 7 }, col3 := { x := 7, y := 7 } }).2.1
        = (Camera.project3Jacobian exampleVirtuals exampleCamera
            { x := -1, y := -2, z := 3 }).2.1 ∧
      (Camera.project4Jacobian exampleVirtuals exampleCamera
        { x := 1, y := 2, z := -3, w := -1 }
        { col0 := { x := 7, y := 7 }, col1 := { x := 7, y := 7 },
          col2 := { x := 7, y := 7 }, col3 := { x := 7, y := 7 } }).2.2.EmbedsJacobian
        (Camera.project3Jacobian exampleVirtuals exampleCamera
            { x := -1, y := -2, z := 3 }).2.2) ∧
    ((Camera.project4Jacobian exampleVirtuals exampleCamera
        { x := 1, y := 2, z := 3, w := 2 }
        { col0 := { x := 7, y := 7 }, col1 := { x := 7, y := 7 },
          col2 := { x := 7, y := 7 }, col3 := { x := 7, y := 7 } }).1
        = (Camera.project3Jacobian exampleVirtuals exampleCamera
            { x := 1, y := 2, z := 3 }).1 ∧
      (Camera.project4Jacobian exampleVirtuals exampleCamera
        { x := 1, y := 2, z := 3, w := 2 }
        { col0 := { x := 7, y := 7 }, col1 := { x := 7, y := 7 },
          col2 := { x := 7, y := 7 }, col3 := { x := 7, y := 7 } }).2.1
        = (Camera.project3Jacobian exampleVirtuals exampleCamera
            { x := 1, y := 2, z := 3 }).2.1 ∧
      (Camera.project4Jacobian exampleVirtuals exampleCamera
        { x := 1, y := 2, z := 3, w := 2 }
        { col0 := { x := 7, y := 7 }, col1 := { x := 7, y := 7 },
          col2 := { x := 7, y := 7 }, col3 := { x := 7, y := 7 } }).2.2.EmbedsJacobian
        (Camera.project3Jacobian exampleVirtuals exampleCamera
            { x := 1, y := 2, z := 3 }).2.2) :=
  ⟨(project4_jacobian_embedding exampleVirtuals exampleCamera 1 2 (-3) (-1) _).1
      (by decide),
   (project4_jacobian_embedding exampleVirtuals exampleCamera 1 2 3 2 _).2 (by decide)⟩

/-- C12. backProject4 returns the success flag of backProject3 on the same pixel, and the
4-vector it writes is the bearing vector of backProject3 followed by a fourth coordinate
0, whatever the flag. -/
theorem backProject4_appends_zero {R D : Type} [Zero R] (vt : CameraVirtuals R D)
    (cam : Camera R D) (keypoint : Vector2 R) :
    (Camera.backProject4 vt cam keypoint).1 = (vt.backProject3 cam keypoint).1 ∧
    (Camera.backProject4 vt cam keypoint).2.x = (vt.backProject3 cam keypoint).2.x ∧
    (Camera.backProject4 vt cam keypoint).2.y = (vt.backProject3 cam keypoint).2.y ∧
    (Camera.backProject4 vt cam keypoint).2.z = (vt.backProject3 cam keypoint).2.z ∧
    (Camera.backProject4 vt cam keypoint).2.w = 0 :=
  ⟨rfl, rfl, rfl, rfl, rfl⟩

/-- C13. isProjectable3(p) is true exactly when the outcome of project3(p) is
KEYPOINT_VISIBLE, isProjectable4(ph) is true exactly when the outcome of project4(ph) is
KEYPOINT_VISIBLE, and isProjectable4(x,y,z,w) is isProjectable3(-x,-y,-z) when w < 0 and
isProjectable3(x,y,z) otherwise. -/
theorem isProjectable_iff_visible {R D : Type} [Zero R] [Neg R] [LT R]
    [DecidableRel (fun a b : R => a < b)] (vt : CameraVirtuals R D) (cam : Camera R D)
    (p : Vector3 R) (x y z w : R) :
    (Camera.isProjectable3 vt cam p = true ↔
      (Camera.project3 vt cam p).1.status_ = Status.KEYPOINT_VISIBLE) ∧
    (Camera.isProjectable4 vt cam { x := x, y := y, z := z, w := w } = true ↔
      (Camera.project4 vt cam { x := x, y := y, z := z, w := w }).1.status_
        = Status.KEYPOINT_VISIBLE) ∧
    (w < 0 → Camera.isProjectable4 vt cam { x := x, y := y, z := z, w := w }
      = Camera.isProjectable3 vt cam { x := -x, y := -y, z := -z }) ∧
    (¬ w < 0 → Camera.isProjectable4 vt cam { x := x, y := y, z := z, w := w }
      = Camera.isProjectable3 vt cam { x := x, y := y, z := z }) := by
  refine ⟨?_, ?_, ?_, ?_⟩
  · simp [Camera.isProjectable3, ProjectionResult.isKeypointVisible]
  · simp [Camera.isProjectable4, ProjectionResult.isKeypointVisible]
  · intro hw
    simp [Camera.isProjectable4, Camera.isProjectable3, Camera.project4, hw, Vector4.head3,
      Vector3.neg]
  · intro hw
    simp [Camera.isProjectable4, Camera.isProjectable3, Camera.project4, hw, Vector4.head3]

/-- C13, at concrete inputs over the integers: a visible point, and the homogeneous
points with w = -1 and w = 2. -/
theorem isProjectable_iff_visible_witness :
    Camera.isProjectable3 exampleVirtuals exampleCamera { x := 1, y := 2, z := 3 } = true ∧
    Camera.isProjectable4 exampleVirtuals exampleCamera { x := 1, y := 2, z := -3, w := -1 }
      = Camera.isProjectable3 exampleVirtuals exampleCamera { x := -1, y := -2, z := 3 } ∧
    Camera.isProjectable4 exampleVirtuals exampleCamera { x := 1, y := 2, z := -3, w := 2 }
      = Camera.isProjectable3 exampleVirtuals exampleCamera { x := 1, y := 2, z := -3 } :=
  ⟨(isProjectable_iff_visible exampleVirtuals exampleCamera { x := 1, y := 2, z := 3 }
      0 0 0 0).1.2 rfl,
   (isProjectable_iff_visible exampleVirtuals exampleCamera { x := 0, y := 0, z := 0 }
      1 2 (-3) (-1)).2.2.1 (by decide),
   (isProjectable_iff_visible exampleVirtuals exampleCamera { x := 0, y := 0, z := 0 }
      1 2 (-3) 2).2.2.2 (by decide)⟩

/-- The back-projection loop over containers of the right size: it never indexes out of
range, keeps the sizes, leaves the earlier indices as they were, and at every index `j`
it goes through it writes what scalar `backProject3` gives on column `j` when the buffer
holds what the pass before left in it (the entry content of `bearing` for the first
pass, the bearing written at `j - 1` afterwards). -/
theorem forRange_backProject3VectorizedBody {R D : Type} (bv : CameraVirtualsInPlace R D)
    (cam : Camera R D) (kps : List (Vector2 R)) :
    ∀ (k i : Nat) (s : BackProject3VectorizedState R),
      i + k ≤ kps.length → s.points.length = kps.length →
      s.success.length = kps.length →
      ∃ s1,
        forRange (Camera.backProject3VectorizedBody bv cam kps) k i s = Except.ok s1 ∧
        s1.points.length = kps.length ∧ s1.success.length = kps.length ∧
        (∀ (j : Nat) (q : Vector2 R), i ≤ j → j < i + k → kps[j]? = some q →
          ∃ b : Vector3 R, (j = i → b = s.bearing) ∧
            (i < j → s1.points[j - 1]? = some b) ∧
            s1.points[j]? = some (bv.backProject3 cam q b).2 ∧
            s1.success[j]? = some (bv.backProject3 cam q b).1) ∧
        (∀ j, j < i → s1.points[j]? = s.points[j]? ∧
          s1.success[j]? = s.success[j]?) := by
  intro k
  induction k with
  | zero =>
    intro i s _ hp hs
    exact ⟨s, rfl, hp, hs, fun j q h1 h2 => by omega, fun j _ => ⟨rfl, rfl⟩⟩
  | succ k ih =>
    intro i s hi hp hs
    have hik : i < kps.length := by omega
    have hbody : Camera.backProject3VectorizedBody bv cam kps i s =
        Except.ok
          { points := s.points.set i (bv.backProject3 cam kps[i] s.bearing).2,
            success := s.success.set i (bv.backProject3 cam kps[i] s.bearing).1,
            bearing := (bv.backProject3 cam kps[i] s.bearing).2 } := by
      unfold Camera.backProject3VectorizedBody
      rw [List.getElem?_eq_getElem hik]
      simp only [hp, hs, hik, and_self, if_true]
    obtain ⟨s1, hrun, hp1, hs1, hnew, hold⟩ :=
      ih (i + 1)
        { points := s.points.set i (bv.backProject3 cam kps[i] s.bearing).2,
          success := s.success.set i (bv.backProject3 cam kps[i] s.bearing).1,
          bearing := (bv.backProject3 cam kps[i] s.bearing).2 }
        (by omega) (by simpa using hp) (by simpa using hs)
    have hat : s1.points[i]? = some (bv.backProject3 cam kps[i] s.bearing).2 ∧
        s1.success[i]? = some (bv.backProject3 cam kps[i] s.bearing).1 := by
      obtain ⟨e1, e2⟩ := hold i (by omega)
      rw [e1, e2]
      constructor
      · show (s.points.set i _)[i]? = _
        rw [List.getElem?_set_self]
        simp [hp, hik]
      · show (s.success.set i _)[i]? = _
        rw [List.getElem?_set_self]
        simp [hs, hik]
    refine ⟨s1, ?_, hp1, hs1, ?_, ?_⟩
    · simp only [forRange, hbody]
      exact hrun
    · intro j q h1 h2 hq
      by_cases hji : j = i
      · subst hji
        rw [List.getElem?_eq_getElem hik] at hq
        cases hq
        exact ⟨s.bearing, fun _ => rfl, fun hlt => absurd hlt (lt_irrefl j), hat.1,
          hat.2⟩
      · obtain ⟨b, hb1, hb2, hb3, hb4⟩ := hnew j q (by omega) (by omega) hq
        refine ⟨b, fun e => absurd e hji, ?_, hb3, hb4⟩
        intro _
        by_cases hj1 : j = i + 1
        · have hb : b = (bv.backProject3 cam kps[i] s.bearing).2 := hb1 hj1
          subst hj1
          rw [hb]
          simpa using hat.1
        · exact hb2 (by omega)
    · intro j hj
      obtain ⟨e1, e2⟩ := hold j (by omega)
      rw [e1, e2]
      have hne : i ≠ j := by omega
      exact ⟨List.getElem?_set_ne hne, List.getElem?_set_ne hne⟩

theorem length_resizeColumns3 {R : Type} (m : List (Vector3 R)) (cols : Nat)
    (garbage : Nat → Vector3 R) : (resizeColumns3 m cols garbage).length = cols := by
  unfold resizeColumns3
  split
  · assumption
  · simp

/-- What `backProject3Vectorized` returns: containers of size N in which index `i` holds
what scalar `backProject3` gives on column `i` when the buffer holds what pass `i - 1`
left. -/
theorem backProject3Vectorized_ok {R D : Type} (bv : CameraVirtualsInPlace R D)
    (cam : Camera R D) (keypoints : List (Vector2 R)) (out_points_3d : List (Vector3 R))
    (out_success : List Bool) (garbage : Nat → Vector3 R) (bearing : Vector3 R) :
    ∃ points success,
      Camera.backProject3Vectorized bv cam keypoints out_points_3d out_success garbage
        bearing = Except.ok (points, success) ∧
      points.length = keypoints.length ∧ success.length = keypoints.length ∧
      ∀ (i : Nat) (q : Vector2 R), keypoints[i]? = some q →
        ∃ b : Vector3 R, (i = 0 → b = bearing) ∧
          (0 < i → points[i - 1]? = some b) ∧
          points[i]? = some (bv.backProject3 cam q b).2 ∧
          success[i]? = some (bv.backProject3 cam q b).1 := by
  obtain ⟨s1, hrun, hp1, hs1, hnew, _⟩ :=
    forRange_backProject3VectorizedBody bv cam keypoints keypoints.length 0
      { points := resizeColumns3 out_points_3d keypoints.length garbage,
        success := resizeVector out_success keypoints.length false,
        bearing := bearing }
      (by omega) (length_resizeColumns3 _ _ _) (length_resizeVector _ _ _)
  refine ⟨s1.points, s1.success, ?_, hp1, hs1, ?_⟩
  · unfold Camera.backProject3Vectorized
    simp only [hrun]
  · intro i q hq
    have hi : i < keypoints.length := by
      by_contra hcon
      rw [List.getElem?_eq_none (by omega)] at hq
      cases hq
    exact hnew i q (Nat.zero_le i) (by omega) hq

/-- C14, as stated, fails for a camera whose backProject3 leaves the output bearing
untouched when it fails.  The wrapper passes the same local `bearing` on every pass, so
the failing column 1 comes back with the bearing of column 0: two inputs with the same
column 1 give different bearings at index 1, (1, 2, 1) and (3, 4, 1), and neither is what
scalar backProject3 leaves in a caller's buffer holding (0, 0, 0). -/
theorem backProject3Vectorized_stale_column :
    Camera.backProject3Vectorized staleVirtuals exampleCamera
        [{ x := 1, y := 2 }, { x := -1, y := 5 }] [] []
        (fun _ => { x := 0, y := 0, z := 0 }) { x := 0, y := 0, z := 0 }
      = Except.ok ([{ x := 1, y := 2, z := 1 }, { x := 1, y := 2, z := 1 }],
          [true, false]) ∧
    Camera.backProject3Vectorized staleVirtuals exampleCamera
        [{ x := 3, y := 4 }, { x := -1, y := 5 }] [] []
        (fun _ => { x := 0, y := 0, z := 0 }) { x := 0, y := 0, z := 0 }
      = Except.ok ([{ x := 3, y := 4, z := 1 }, { x := 3, y := 4, z := 1 }],
          [true, false]) ∧
    staleVirtuals.backProject3 exampleCamera { x := -1, y := 5 }
        { x := 0, y := 0, z := 0 }
      = (false, { x := 0, y := 0, z := 0 }) ∧
    ({ x := 1, y := 2, z := 1 } : Vector3 Int) ≠ { x := 3, y := 4, z := 1 } ∧
    ({ x := 1, y := 2, z := 1 } : Vector3 Int) ≠ { x := 0, y := 0, z := 0 } :=
  ⟨rfl, rfl, rfl, by decide, by decide⟩

/-- C14, amended. For a camera whose backProject3 determines its success flag and the
bearing it writes from the pixel alone (what the output buffer held before does not
matter), and whatever the output containers and the local buffer held,
backProject3Vectorized over the N columns returns, never indexing out of range, exactly
N bearing columns and exactly N success flags; for every i < N the i-th bearing and the
i-th flag are those scalar backProject3 returns on column i, into any buffer; hence any
other call whose input has the same column i yields the same i-th bearing and flag. -/
theorem backProject3Vectorized_columnwise {R D : Type} (bv : CameraVirtualsInPlace R D)
    (cam : Camera R D) (keypoints : List (Vector2 R)) (out_points_3d : List (Vector3 R))
    (out_success : List Bool) (garbage : Nat → Vector3 R) (bearing : Vector3 R)
    (hwrites : ∀ (q : Vector2 R) (b1 b2 : Vector3 R),
      bv.backProject3 cam q b1 = bv.backProject3 cam q b2) :
    ∃ points success,
      Camera.backProject3Vectorized bv cam keypoints out_points_3d out_success garbage
        bearing = Except.ok (points, success) ∧
      points.length = keypoints.length ∧ success.length = keypoints.length ∧
      (∀ (i : Nat) (q : Vector2 R) (b : Vector3 R), keypoints[i]? = some q →
        points[i]? = some (bv.backProject3 cam q b).2 ∧
        success[i]? = some (bv.backProject3 cam q b).1) ∧
      (∀ (keypoints2 : List (Vector2 R)) (out_points2 : List (Vector3 R))
          (out_success2 : List Bool) (garbage2 : Nat → Vector3 R) (bearing2 : Vector3 R)
          (points2 : List (Vector3 R)) (success2 : List Bool),
        Camera.backProject3Vectorized bv cam keypoints2 out_points2 out_success2 garbage2
          bearing2 = Except.ok (points2, success2) →
        ∀ (i : Nat) (q : Vector2 R), keypoints[i]? = some q → keypoints2[i]? = some q →
          points2[i]? = points[i]? ∧ success2[i]? = success[i]?) := by
  obtain ⟨points, success, hrun, hp, hs, hcol⟩ :=
    backProject3Vectorized_ok bv cam keypoints out_points_3d out_success garbage bearing
  have hcolw : ∀ (i : Nat) (q : Vector2 R) (b : Vector3 R), keypoints[i]? = some q →
      points[i]? = some (bv.backProject3 cam q b).2 ∧
      success[i]? = some (bv.backProject3 cam q b).1 := by
    intro i q b hq
    obtain ⟨b0, _, _, h1, h2⟩ := hcol i q hq
    rw [hwrites q b b0]
    exact ⟨h1, h2⟩
  refine ⟨points, success, hrun, hp, hs, hcolw, ?_⟩
  intro keypoints2 out_points2 out_success2 garbage2 bearing2 points2 success2 hrun2 i q
    hq hq2
  obtain ⟨pts, suc, hrun3, _, _, hcol2⟩ :=
    backProject3Vectorized_ok bv cam keypoints2 out_points2 out_success2 garbage2 bearing2
  rw [hrun2] at hrun3
  simp only [Except.ok.injEq, Prod.mk.injEq] at hrun3
  obtain ⟨rfl, rfl⟩ := hrun3
  obtain ⟨a1, a2⟩ := hcolw i q bearing hq
  obtain ⟨b0, _, _, b1, b2⟩ := hcol2 i q hq2
  rw [hwrites q b0 bearing] at b1 b2
  exact ⟨b1.trans a1.symm, b2.trans a2.symm⟩

/-- C14 amended, at a concrete input: the camera model of the concrete runs, which
writes its bearing on every call, two columns, and output containers that held other
data. -/
theorem backProject3Vectorized_columnwise_witness :
    Camera.backProject3Vectorized exampleVirtuals.inPlace exampleCamera
        [{ x := 1, y := 2 }, { x := -1, y := 5 }]
        [{ x := 9, y := 9, z := 9 }] [false, true, true]
        (fun _ => { x := 4, y := 4, z := 4 }) { x := 6, y := 6, z := 6 }
      = Except.ok ([{ x := 1, y := 2, z := 1 }, { x := -1, y := 5, z := 1 }],
          [true, true]) ∧
    ∃ points success,
      Camera.backProject3Vectorized exampleVirtuals.inPlace exampleCamera
        [{ x := 1, y := 2 }, { x := -1, y := 5 }]
        [{ x := 9, y := 9, z := 9 }] [false, true, true]
        (fun _ => { x := 4, y := 4, z := 4 }) { x := 6, y := 6, z := 6 }
        = Except.ok (points, success) ∧
      points.length = 2 ∧ success.length = 2 ∧
      (∀ (i : Nat) (q : Vector2 Int) (b : Vector3 Int),
        [({ x := 1, y := 2 } : Vector2 Int), { x := -1, y := 5 }][i]? = some q →
        points[i]? = some (exampleVirtuals.inPlace.backProject3 exampleCamera q b).2 ∧
        success[i]? = some (exampleVirtuals.inPlace.backProject3 exampleCamera q b).1) ∧
      (∀ (keypoints2 : List (Vector2 Int)) (out_points2 : List (Vector3 Int))
          (out_success2 : List Bool) (garbage2 : Nat → Vector3 Int)
          (bearing2 : Vector3 Int) (points2 : List (Vector3 Int)) (success2 : List Bool),
        Camera.backProject3Vectorized exampleVirtuals.inPlace exampleCamera keypoints2
          out_points2 out_success2 garbage2 bearing2 = Except.ok (points2, success2) →
        ∀ (i : Nat) (q : Vector2 Int),
          [({ x := 1, y := 2 } : Vector2 Int), { x := -1, y := 5 }][i]? = some q →
          keypoints2[i]? = some q →
          points2[i]? = points[i]? ∧ success2[i]? = success[i]?) :=
  ⟨rfl,
   backProject3Vectorized_columnwise exampleVirtuals.inPlace exampleCamera
     [{ x := 1, y := 2 }, { x := -1, y := 5 }]
     [{ x := 9, y := 9, z := 9 }] [false, true, true]
     (fun _ => { x := 4, y := 4, z := 4 }) { x := 6, y := 6, z := 6 }
     (fun _ _ _ => rfl)⟩

/-! ## Claims on slots, construction and accessors -/

/-- C15. With no rig present and i below the frame count, setFrame(i, f) returns for
every frame handle f; whenever setFrame(i, f) returns, getFrameMutable(i) then gives f,
every other slot holds what it held, and the id, the rig and the frame count are as
before; with i at or beyond the frame count setFrame fails on its CHECK. -/
theorem setFrame_effect (h : Heap) (vn : VisualNFrame) (i : Nat) (frame : Option Nat) :
    (vn.cameraRig_ = none → i < vn.frames_.length →
      ∃ vn1, vn.setFrame h i frame = Except.ok vn1) ∧
    (∀ vn1, vn.setFrame h i frame = Except.ok vn1 →
      vn1.getFrameMutable i = Except.ok frame ∧
      (∀ j : Nat, j ≠ i → vn1.frames_[j]? = vn.frames_[j]?) ∧
      vn1.id_ = vn.id_ ∧ vn1.cameraRig_ = vn.cameraRig_ ∧
      vn1.getNumFrames = vn.getNumFrames) ∧
    (vn.frames_.length ≤ i → vn.setFrame h i frame = Except.error Fault.checkFailed) := by
  have hset : ∀ vn1, vn.setFrame h i frame = Except.ok vn1 →
      i < vn.frames_.length ∧ vn1 = { vn with frames_ := vn.frames_.set i frame } := by
    intro vn1 hok
    unfold VisualNFrame.setFrame at hok
    by_cases hi : i < vn.frames_.length
    · refine ⟨hi, ?_⟩
      simp only [hi, not_true_eq_false, if_false] at hok
      cases hrig : vn.cameraRig_ with
      | none =>
        simp only [hrig, Except.ok.injEq] at hok
        exact hok.symm
      | some r =>
        simp only [hrig] at hok
        cases hcam : (h.rigs r).getCamera i with
        | error e => simp [hcam] at hok
        | ok cam =>
          simp only [hcam] at hok
          cases frame with
          | none => simp at hok
          | some f =>
            simp only at hok
            split at hok
            · simp only [Except.ok.injEq] at hok
              exact hok.symm
            · simp at hok
    · simp [hi] at hok
  refine ⟨?_, ?_, ?_⟩
  · intro hrig hi
    refine ⟨{ vn with frames_ := vn.frames_.set i frame }, ?_⟩
    simp [VisualNFrame.setFrame, hi, hrig]
  · intro vn1 hok
    obtain ⟨hi, rfl⟩ := hset vn1 hok
    refine ⟨?_, ?_, rfl, rfl, ?_⟩
    · simp [VisualNFrame.getFrameMutable, hi]
    · intro j hj
      exact List.getElem?_set_ne (fun e => hj e.symm)
    · simp [VisualNFrame.getNumFrames]
  · intro hi
    have hnot : ¬ i < vn.frames_.length := by omega
    simp [VisualNFrame.setFrame, hnot]

/-- C15, at a concrete input: no rig, two slots, frame 4 (which carries camera 20) goes
into slot 1. -/
theorem setFrame_effect_witness :
    (∃ vn1, VisualNFrame.setFrame exampleHeap (VisualNFrame.mkWithNumFrames 5 2) 1 (some 4)
      = Except.ok vn1) ∧
    VisualNFrame.getFrameMutable
      { id_ := 5, cameraRig_ := none, frames_ := [none, some 4] } 1 = Except.ok (some 4) ∧
    VisualNFrame.setFrame exampleHeap (VisualNFrame.mkWithNumFrames 5 2) 2 (some 4)
      = Except.error Fault.checkFailed :=
  ⟨(setFrame_effect exampleHeap (VisualNFrame.mkWithNumFrames 5 2) 1 (some 4)).1 rfl
      (by decide),
   ((setFrame_effect exampleHeap (VisualNFrame.mkWithNumFrames 5 2) 1 (some 4)).2.1
      { id_ := 5, cameraRig_ := none, frames_ := [none, some 4] } rfl).1,
   (setFrame_effect exampleHeap (VisualNFrame.mkWithNumFrames 5 2) 2 (some 4)).2.2
      (by decide)⟩

/-- C16, as stated, fails: both constructors accept a width or a height of 0 and store
it as it is. -/
theorem camera_constructor_accepts_zero_size :
    ¬ (0 < (Camera.mkWithoutDistortion 0 [100, 100, 320, 240] 0 480 :
          Camera Int Unit).image_width_ ∧
       0 < (Camera.mkWithoutDistortion 0 [100, 100, 320, 240] 0 480 :
          Camera Int Unit).image_height_) ∧
    ¬ (0 < (Camera.mkWithDistortion 0 [100, 100, 320, 240] (some ()) 640 0 :
          Camera Int Unit).image_width_ ∧
       0 < (Camera.mkWithDistortion 0 [100, 100, 320, 240] (some ()) 640 0 :
          Camera Int Unit).image_height_) := by
  constructor <;> simp [Camera.mkWithoutDistortion, Camera.mkWithDistortion]

/-- C16, amended. Every Camera produced by either constructor from a positive width and
a positive height has image_width > 0 and image_height > 0, line delay 0, the label
"unnamed camera", and the intrinsics, width and height passed in. -/
theorem camera_constructors_fields {R D : Type} (defaultId : Nat) (intrinsics : List R)
    (distortion : Option D) (image_width image_height : Nat)
    (hw : 0 < image_width) (hh : 0 < image_height) :
    (0 < (Camera.mkWithDistortion defaultId intrinsics distortion image_width
          image_height).image_width_ ∧
     0 < (Camera.mkWithDistortion defaultId intrinsics distortion image_width
          image_height).image_height_ ∧
     (Camera.mkWithDistortion defaultId intrinsics distortion image_width
          image_height).line_delay_nano_seconds_ = 0 ∧
     (Camera.mkWithDistortion defaultId intrinsics distortion image_width
          image_height).label_ = "unnamed camera" ∧
     (Camera.mkWithDistortion defaultId intrinsics distortion image_width
          image_height).intrinsics_ = intrinsics ∧
     (Camera.mkWithDistortion defaultId intrinsics distortion image_width
          image_height).image_width_ = image_width ∧
     (Camera.mkWithDistortion defaultId intrinsics distortion image_width
          image_height).image_height_ = image_height) ∧
    (0 < (Camera.mkWithoutDistortion defaultId intrinsics image_width
          image_height : Camera R D).image_width_ ∧
     0 < (Camera.mkWithoutDistortion defaultId intrinsics image_width
          image_height : Camera R D).image_height_ ∧
     (Camera.mkWithoutDistortion defaultId intrinsics image_width
          image_height : Camera R D).line_delay_nano_seconds_ = 0 ∧
     (Camera.mkWithoutDistortion defaultId intrinsics image_width
          image_height : Camera R D).label_ = "unnamed camera" ∧
     (Camera.mkWithoutDistortion defaultId intrinsics image_width
          image_height : Camera R D).intrinsics_ = intrinsics ∧
     (Camera.mkWithoutDistortion defaultId intrinsics image_width
          image_height : Camera R D).image_width_ = image_width ∧
     (Camera.mkWithoutDistortion defaultId intrinsics image_width
          image_height : Camera R D).image_height_ = image_height) :=
  ⟨⟨hw, hh, rfl, rfl, rfl, rfl, rfl⟩, ⟨hw, hh, rfl, rfl, rfl, rfl, rfl⟩⟩

/-- C16 amended, at a concrete input: a 640 x 480 camera. -/
theorem camera_constructors_fields_witness :
    0 < exampleCamera.image_width_ ∧ 0 < exampleCamera.image_height_ ∧
    exampleCamera.line_delay_nano_seconds_ = 0 ∧
    exampleCamera.label_ = "unnamed camera" ∧
    exampleCamera.intrinsics_ = [100, 100, 320, 240] ∧
    exampleCamera.image_width_ = 640 ∧ exampleCamera.image_height_ = 480 :=
  (camera_constructors_fields 0 [100, 100, 320, 240] (none : Option Unit) 640 480
    (by decide) (by decide)).2

/-- C17 (the code diverges from the claim). For an index below the frame count,
isFrameNull returns whether the slot holds a frame: true for a populated slot, false for
an empty one. -/
theorem isFrameNull_true_when_frame_present (vn : VisualNFrame) (i : Nat)
    (slot : Option Nat) (hslot : vn.frames_[i]? = some slot) :
    vn.isFrameNull i = Except.ok slot.isSome := by
  have hi : i < vn.frames_.length := by
    by_contra hcon
    rw [List.getElem?_eq_none (by omega)] at hslot
    cases hslot
  simp [VisualNFrame.isFrameNull, hi, hslot]

/-- C17, at the failing inputs: on a fresh frame set with one empty slot isFrameNull(0)
is false, and once frame 4 is stored there it is true. -/
theorem isFrameNull_true_when_frame_present_witness :
    (VisualNFrame.mkWithNumFrames 5 1).isFrameNull 0 = Except.ok false ∧
    VisualNFrame.isFrameNull { id_ := 5, cameraRig_ := none, frames_ := [some 4] } 0
      = Except.ok true :=
  ⟨isFrameNull_true_when_frame_present (VisualNFrame.mkWithNumFrames 5 1) 0 none rfl,
   isFrameNull_true_when_frame_present
     { id_ := 5, cameraRig_ := none, frames_ := [some 4] } 0 (some 4) rfl⟩

/-- C18. A frame set constructed from a non-null rig, with a given or a random id, has
that rig attached and exactly numCameras() slots, all empty, so the rig-binding invariant
holds; one constructed from an id and a count n has no rig and exactly n empty slots;
constructing from a null rig fails on the CHECK. -/
theorem constructors_fix_slot_count (h : Heap) (id r n : Nat) :
    (∃ vn, VisualNFrame.mkWithRig h id (some r) = Except.ok vn ∧
      vn.id_ = id ∧ vn.cameraRig_ = some r ∧
      vn.getNumFrames = (h.rigs r).numCameras ∧
      (∀ i : Nat, i < vn.getNumFrames → vn.frames_[i]? = some none) ∧
      RigBound h vn) ∧
    (∃ vn, VisualNFrame.mkWithRigRandomId h id (some r) = Except.ok vn ∧
      vn.id_ = id ∧ vn.cameraRig_ = some r ∧
      vn.getNumFrames = (h.rigs r).numCameras ∧
      (∀ i : Nat, i < vn.getNumFrames → vn.frames_[i]? = some none) ∧
      RigBound h vn) ∧
    ((VisualNFrame.mkWithNumFrames id n).id_ = id ∧
      (VisualNFrame.mkWithNumFrames id n).cameraRig_ = none ∧
      (VisualNFrame.mkWithNumFrames id n).getNumFrames = n ∧
      ∀ i : Nat, i < n → (VisualNFrame.mkWithNumFrames id n).frames_[i]? = some none) ∧
    VisualNFrame.mkWithRig h id none = Except.error Fault.checkFailed ∧
    VisualNFrame.mkWithRigRandomId h id none = Except.error Fault.checkFailed := by
  have hbound : RigBound h
      { id_ := id, cameraRig_ := some r,
        frames_ := List.replicate (h.rigs r).getNumCameras none } := by
    unfold RigBound
    intro r1 hr1
    simp only [Option.some.injEq] at hr1
    subst hr1
    refine ⟨by simp [NCamera.getNumCameras, NCamera.numCameras], ?_⟩
    intro i f hf
    simp only [List.getElem?_replicate] at hf
    split at hf <;> simp at hf
  have hslots : ∀ (m i : Nat), i < m →
      (List.replicate m (none : Option Nat))[i]? = some none := by
    intro m i hi
    simp [List.getElem?_replicate, hi]
  refine ⟨⟨_, rfl, rfl, rfl, ?_, ?_, hbound⟩, ⟨_, rfl, rfl, rfl, ?_, ?_, hbound⟩,
    ⟨rfl, rfl, ?_, ?_⟩, rfl, rfl⟩
  · simp [VisualNFrame.getNumFrames, NCamera.getNumCameras, NCamera.numCameras]
  · intro i hi
    simp only [VisualNFrame.getNumFrames, List.length_replicate] at hi
    exact hslots _ i hi
  · simp [VisualNFrame.getNumFrames, NCamera.getNumCameras, NCamera.numCameras]
  · intro i hi
    simp only [VisualNFrame.getNumFrames, List.length_replicate] at hi
    exact hslots _ i hi
  · simp [VisualNFrame.getNumFrames, VisualNFrame.mkWithNumFrames]
  · intro i hi
    exact hslots n i hi

/-- C19. project3(p) returns the outcome and the pixel of the general
project3Functional on p with no intrinsics override, no distortion override and no
Jacobian slot requested; the four-argument project3Functional hands both overrides on,
unchanged, to the general form with no Jacobian slot requested. -/
theorem project3_forwards_to_general {R D : Type} (vt : CameraVirtuals R D)
    (cam : Camera R D) (p : Vector3 R) (intrinsics_external : Option (List R))
    (distortion_coefficients_external : Option (List R)) :
    Camera.project3 vt cam p
      = ((vt.project3Functional cam p none none false false false).result,
         (vt.project3Functional cam p none none false false false).out_keypoint) ∧
    Camera.project3Functional4 vt cam p intrinsics_external distortion_coefficients_external
      = ((vt.project3Functional cam p intrinsics_external
            distortion_coefficients_external false false false).result,
         (vt.project3Functional cam p intrinsics_external
            distortion_coefficients_external false false false).out_keypoint) ∧
    Camera.project3 vt cam p = Camera.project3Functional4 vt cam p none none :=
  ⟨rfl, rfl, rfl⟩

/-- C20. getFrame(i) fails exactly when i is at or beyond the frame count or slot i is
empty, always on a CHECK, and otherwise returns the frame stored in slot i;
getFrameMutable(i) fails exactly when i is at or beyond the frame count, on a CHECK, and
otherwise returns the handle stored in slot i, null or not. Both only read the frame
set. -/
theorem getFrame_getFrameMutable_iff (vn : VisualNFrame) (i : Nat) :
    ((∃ e, vn.getFrame i = Except.error e) ↔
      (vn.frames_.length ≤ i ∨ vn.frames_[i]? = some none)) ∧
    (∀ e, vn.getFrame i = Except.error e → e = Fault.checkFailed) ∧
    (∀ f : Nat, vn.frames_[i]? = some (some f) → vn.getFrame i = Except.ok f) ∧
    ((∃ e, vn.getFrameMutable i = Except.error e) ↔ vn.frames_.length ≤ i) ∧
    (∀ e, vn.getFrameMutable i = Except.error e → e = Fault.checkFailed) ∧
    (∀ slot : Option Nat, vn.frames_[i]? = some slot →
      vn.getFrameMutable i = Except.ok slot) := by
  unfold VisualNFrame.getFrame VisualNFrame.getFrameMutable
  by_cases hi : i < vn.frames_.length
  · have hle : ¬ vn.frames_.length ≤ i := by omega
    rw [List.getElem?_eq_getElem hi]
    simp only [hi, not_true_eq_false, if_false, hle, false_or, Option.some.injEq]
    cases hslot : vn.frames_[i] with
    | none => simp
    | some f => simp
  · have hle : vn.frames_.length ≤ i := by omega
    simp [hi, hle, List.getElem?_eq_none hle, eq_comm]

end aslam
